import Mathlib

/-!
# godown: the command-line front end (`godown.go`)

A shallow embedding of the `start` and `stop` commands of `godown.go` and of the
helpers they call (`addFile`, `getID`, `killServer`, `killFile`, `launchBrowser`).

The program is effectful: it builds HTTP requests, sends them, starts processes and
ends through `log.Fatalf` or a run-time panic.  A run is modelled as a function from
the events performed so far to the extended event list together with the way the run
ended (`Prog`).  Everything the program cannot decide by itself (the answers of the
HTTP client, the operating system name, whether the port could be bound, ...) is
a field of the environment `Env`.

The first part models the pieces of the Go standard library that the program
relies on (`strconv.Itoa`, `net/url`, `http.NewRequest`, `encoding/json`).
Go strings are modelled by Lean strings, i.e. sequences of Unicode characters.
-/

namespace Godown

/-! ## Go standard library -/

/-- Model of `strconv.Itoa`: the decimal rendering of a Go `int`. -/
def Itoa : Int → String
  | Int.ofNat n => Nat.repr n
  | Int.negSucc n => "-" ++ Nat.repr (n + 1)

/-- The check `stringContainsCTLByte` of `net/url`: an ASCII control byte. -/
def stringContainsCTLByte (s : List Char) : Bool :=
  s.any fun c => decide (c.toNat < 32) || decide (c.toNat = 127)

/-- Model of `strings.Cut` for a one-character separator: the text before the first
separator and the text after it (everything and nothing when there is none). -/
def cut (sep : Char) (s : List Char) : List Char × List Char :=
  (s.takeWhile (fun c => c != sep), (s.dropWhile (fun c => c != sep)).drop 1)

/-- Loop of `getScheme` in `net/url`; `acc` is the text read so far. -/
def getSchemeAux (raw : List Char) : List Char → List Char → Except String (List Char × List Char)
  | _, [] => .ok ([], raw)
  | acc, c :: cs =>
    if c.isAlpha then getSchemeAux raw (acc ++ [c]) cs
    else if c.isDigit || c = '+' || c = '-' || c = '.' then
      if acc = [] then .ok ([], raw) else getSchemeAux raw (acc ++ [c]) cs
    else if c = ':' then
      if acc = [] then .error "missing protocol scheme" else .ok (acc, cs)
    else .ok ([], raw)

/-- Model of `getScheme` in `net/url`: splits `scheme:rest`. -/
def getScheme (raw : List Char) : Except String (List Char × List Char) :=
  getSchemeAux raw [] raw

/-- Model of `ishex` in `net/url`. -/
def ishex (c : Char) : Bool :=
  c.isDigit || (decide ('a' ≤ c) && decide (c ≤ 'f')) || (decide ('A' ≤ c) && decide (c ≤ 'F'))

/-- Model of `unhex` in `net/url`. -/
def unhex (c : Char) : Nat :=
  if c.isDigit then c.toNat - 48
  else if 'a' ≤ c ∧ c ≤ 'f' then c.toNat - 97 + 10
  else if 'A' ≤ c ∧ c ≤ 'F' then c.toNat - 65 + 10
  else 0

/-- Model of `utf8.DecodeRune` on a non-empty byte sequence: the character of the
well-formed UTF-8 sequence at its start and the number of bytes of that sequence, or
U+FFFD and 1 when no well-formed sequence starts there. -/
def decodeRune (bs : List Nat) : Char × Nat :=
  let b0 := bs.headD 256
  let b1 := (bs.drop 1).headD 256
  let b2 := (bs.drop 2).headD 256
  let b3 := (bs.drop 3).headD 256
  if b0 < 128 then (Char.ofNat b0, 1)
  else if 194 ≤ b0 ∧ b0 ≤ 223 ∧ 128 ≤ b1 ∧ b1 ≤ 191 then
    (Char.ofNat ((b0 - 192) * 64 + (b1 - 128)), 2)
  else if 224 ≤ b0 ∧ b0 ≤ 239 ∧ (if b0 = 224 then 160 else 128) ≤ b1 ∧
      b1 ≤ (if b0 = 237 then 159 else 191) ∧ 128 ≤ b2 ∧ b2 ≤ 191 then
    (Char.ofNat ((b0 - 224) * 4096 + (b1 - 128) * 64 + (b2 - 128)), 3)
  else if 240 ≤ b0 ∧ b0 ≤ 244 ∧ (if b0 = 240 then 144 else 128) ≤ b1 ∧
      b1 ≤ (if b0 = 244 then 143 else 191) ∧ 128 ≤ b2 ∧ b2 ≤ 191 ∧ 128 ≤ b3 ∧ b3 ≤ 191 then
    (Char.ofNat ((b0 - 240) * 262144 + (b1 - 128) * 4096 + (b2 - 128) * 64 + (b3 - 128)), 4)
  else (Char.ofNat 65533, 1)

/-- Loop of `utf8Decode`; every step uses at least one byte, so the number of bytes
is enough fuel. -/
def utf8DecodeAux : Nat → List Nat → List Char
  | 0, _ => []
  | fuel + 1, bs =>
    if bs = [] then []
    else (decodeRune bs).1 :: utf8DecodeAux fuel (bs.drop (decodeRune bs).2)

/-- Reading bytes as UTF-8 text, the way Go reads a string rune by rune. -/
def utf8Decode (bs : List Nat) : List Char :=
  utf8DecodeAux bs.length bs

/-- Loop of `unescape`; `pending` holds the escaped bytes above 127 that have been
read and not yet turned into text. -/
def unescapeAux (plus : Bool) : List Nat → List Char → Option (List Char)
  | pending, [] => some (utf8Decode pending)
  | pending, c :: cs =>
    if c = '%' then
      match cs with
      | a :: b :: rest =>
        if ishex a && ishex b then
          if 16 * unhex a + unhex b < 128 then
            (unescapeAux plus [] rest).map
              (fun r => utf8Decode pending ++ Char.ofNat (16 * unhex a + unhex b) :: r)
          else unescapeAux plus (pending ++ [16 * unhex a + unhex b]) rest
        else none
      | _ => none
    else
      (unescapeAux plus [] cs).map
        (fun r => utf8Decode pending ++ (if plus && c = '+' then ' ' else c) :: r)

/-- Model of `unescape` in `net/url` for the path, fragment and query-component
modes: `%XX` is decoded to a byte, and in a query component (`plus = true`) `+` is a
space.  The result is `none` for a malformed escape.  The decoded bytes are read as
UTF-8 text. -/
def unescape (plus : Bool) (s : List Char) : Option (List Char) :=
  unescapeAux plus [] s

/-- Model of `validOptionalPort` in `net/url`: empty, or a colon followed by digits. -/
def validOptionalPort : List Char → Bool
  | [] => true
  | c :: cs => c = ':' && cs.all fun b => decide ('0' ≤ b) && decide (b ≤ '9')

/-- The text from the last colon on (`host[strings.LastIndex(host, ":"):]`), if any. -/
def colonPort (host : List Char) : Option (List Char) :=
  if ':' ∈ host then some (':' :: ((host.reverse.takeWhile (fun c => c != ':')).reverse)) else none

/-- Characters that `unescape` accepts unescaped in a host name (`shouldEscape` in
host mode returns false). -/
def hostChar (c : Char) : Bool :=
  decide (128 ≤ c.toNat) || c.isAlphanum ||
    c ∈ ['!', '$', '&', Char.ofNat 39, '(', ')', '*', '+', ',', ';', '=', ':', '[', ']', '<', '>',
      Char.ofNat 34, '-', '_', '.', '~']

/-- Model of `parseAuthority` / `parseHost` in `net/url` for authorities without user
information, IP literal or escape (none of which occurs in `localhost:<port>`); such
authorities are reported as errors of the model. -/
def parseAuthority (authority : List Char) : Except String (List Char) :=
  if '@' ∈ authority ∨ '%' ∈ authority ∨ authority.head? = some '[' then
    .error "authority outside the model"
  else
    match colonPort authority with
    | some p =>
      if validOptionalPort p then
        if authority.all hostChar then .ok authority else .error "invalid character in host name"
      else .error "invalid port after host"
    | none =>
      if authority.all hostChar then .ok authority else .error "invalid character in host name"

/-- A parsed URL (`url.URL`), without user information. -/
structure URL where
  scheme : String
  opaq : String
  host : String
  path : String
  forceQuery : Bool
  rawQuery : String
  fragment : String
deriving DecidableEq

/-- Model of the unexported `parse` of `net/url` (called with `viaRequest = false`)
on a URL whose fragment has been cut off. -/
def parseNoFragment (raw : List Char) : Except String URL :=
  if stringContainsCTLByte raw then .error "net/url: invalid control character in URL"
  else if raw = ['*'] then .ok ⟨"", "", "", "*", false, "", ""⟩
  else
    match getScheme raw with
    | .error e => .error e
    | .ok (scheme0, rest0) =>
      let scheme := scheme0.map Char.toLower
      let forceQuery : Bool := decide (rest0.getLast? = some '?') && decide (rest0.count '?' = 1)
      let rest1 := if forceQuery then rest0.dropLast else (cut '?' rest0).1
      let rawQuery := if forceQuery then [] else (cut '?' rest0).2
      if rest1.head? ≠ some '/' ∧ scheme ≠ [] then
        .ok ⟨String.mk scheme, String.mk rest1, "", "", forceQuery, String.mk rawQuery, ""⟩
      else if rest1.head? ≠ some '/' ∧ ':' ∈ (cut '/' rest1).1 then
        .error "first path segment in URL cannot contain colon"
      else if (scheme ≠ [] ∨ rest1.take 3 ≠ ['/', '/', '/']) ∧ rest1.take 2 = ['/', '/'] then
        let authority := (rest1.drop 2).takeWhile (fun c => c != '/')
        let rest2 := (rest1.drop 2).dropWhile (fun c => c != '/')
        match parseAuthority authority with
        | .error e => .error e
        | .ok host =>
          match unescape false rest2 with
          | none => .error "invalid URL escape"
          | some path =>
            .ok ⟨String.mk scheme, "", String.mk host, String.mk path, forceQuery,
              String.mk rawQuery, ""⟩
      else
        match unescape false rest1 with
        | none => .error "invalid URL escape"
        | some path =>
          .ok ⟨String.mk scheme, "", "", String.mk path, forceQuery, String.mk rawQuery, ""⟩

/-- Model of `url.Parse`: the fragment is cut off at the first `#`, the rest is
parsed, and the fragment is unescaped. -/
def urlParse (rawURL : String) : Except String URL :=
  match parseNoFragment (cut '#' rawURL.data).1 with
  | .error e => .error e
  | .ok u =>
    if (cut '#' rawURL.data).2 = [] then .ok u
    else
      match unescape false (cut '#' rawURL.data).2 with
      | none => .error "invalid URL escape"
      | some frag => .ok { u with fragment := String.mk frag }

/-- Splits a text at every occurrence of a separator. -/
def splitOn (sep : Char) : List Char → List (List Char)
  | [] => [[]]
  | c :: cs =>
    if c = sep then [] :: splitOn sep cs
    else
      match splitOn sep cs with
      | [] => [[c]]
      | w :: ws => (c :: w) :: ws

/-- One `key=value` piece of a query string as `parseQuery` of `net/url` reads it:
nothing for an empty piece, for a piece with a semicolon and for a malformed escape. -/
def parsePair (piece : List Char) : Option (String × String) :=
  if piece = [] ∨ ';' ∈ piece then none
  else
    match unescape true (cut '=' piece).1, unescape true (cut '=' piece).2 with
    | some k, some v => some (String.mk k, String.mk v)
    | _, _ => none

/-- Model of `url.ParseQuery` as used by `URL.Query()`: the decoded pairs in order
(pieces that fail to parse are dropped). -/
def parseQuery (rawQuery : String) : List (String × String) :=
  (splitOn '&' rawQuery.data).filterMap parsePair

/-- Model of `u.Query().Get(key)`: the first value of the key, or the empty string. -/
def queryGet (u : URL) (key : String) : String :=
  match (parseQuery u.rawQuery).find? (fun kv => kv.1 = key) with
  | some kv => kv.2
  | none => ""

/-- Model of `u.Query().Has(key)`. -/
def queryHas (u : URL) (key : String) : Bool :=
  (parseQuery u.rawQuery).any (fun kv => kv.1 = key)

/-- Token characters of an HTTP method (`httpguts.IsTokenRune`). -/
def isTokenRune (c : Char) : Bool :=
  c.isAlphanum ||
    c ∈ ['!', '#', '$', '%', '&', Char.ofNat 39, '*', '+', '-', '.', '^', '_', Char.ofNat 96, '|', '~']

/-- Model of `validMethod` in `net/http`. -/
def validMethod (method : String) : Bool :=
  decide (method.data ≠ []) && method.data.all isTokenRune

/-- Model of `removeEmptyPort` in `net/http`: `host:` becomes `host`. -/
def removeEmptyPort (host : String) : String :=
  if host.data.getLast? = some ':' then String.mk host.data.dropLast else host

/-- An `http.Request` as built by `http.NewRequest`: the method, the URL text it was
built from, the parsed URL, and the body (`none` for a `nil` body). -/
structure Request where
  method : String
  url : String
  parsed : URL
  body : Option String
deriving DecidableEq

/-- Model of `http.NewRequest`: fails on an invalid method or an unparsable URL. -/
def newRequest (method url : String) (body : Option String) : Except String Request :=
  let method := if method = "" then "GET" else method
  if validMethod method then
    match urlParse url with
    | .error e => .error e
    | .ok u => .ok ⟨method, url, { u with host := removeEmptyPort u.host }, body⟩
  else .error "net/http: invalid method"

/-- JSON escaping of one character by `encoding/json`, with HTML escaping (which
`json.Marshal` applies): quote, backslash, newline, carriage return, tab, backspace
and form feed get a two-character escape; the other control characters, `<`, `>`,
`&`, U+2028 and U+2029 are written as `\uXXXX`; every other character is written as
it is. -/
def jsonEscapeChar (c : Char) : List Char :=
  if c = Char.ofNat 34 then [Char.ofNat 92, Char.ofNat 34]
  else if c = Char.ofNat 92 then [Char.ofNat 92, Char.ofNat 92]
  else if c = '\n' then [Char.ofNat 92, 'n']
  else if c = '\r' then [Char.ofNat 92, 'r']
  else if c = '\t' then [Char.ofNat 92, 't']
  else if c = Char.ofNat 8 then [Char.ofNat 92, 'b']
  else if c = Char.ofNat 12 then [Char.ofNat 92, 'f']
  else if c.toNat < 32 ∨ c = '<' ∨ c = '>' ∨ c = '&' then
    [Char.ofNat 92, 'u', '0', '0', Nat.digitChar (c.toNat / 16), Nat.digitChar (c.toNat % 16)]
  else if c.toNat = 8232 then [Char.ofNat 92, 'u', '2', '0', '2', '8']
  else if c.toNat = 8233 then [Char.ofNat 92, 'u', '2', '0', '2', '9']
  else [c]

/-- Model of `json.Marshal(&struct{ Path string }{filePath})`; marshalling a struct
with one string field never fails. -/
def jsonMarshalPath (filePath : String) : Except String String :=
  .ok ("\x7b\"Path\":\"" ++ String.mk (filePath.data.flatMap jsonEscapeChar) ++ "\"\x7d")

/-- The character a one-letter JSON escape stands for. -/
def jsonSimpleEscape (e : Char) : Option Char :=
  if e = Char.ofNat 34 then some (Char.ofNat 34)
  else if e = Char.ofNat 92 then some (Char.ofNat 92)
  else if e = '/' then some '/'
  else if e = 'b' then some (Char.ofNat 8)
  else if e = 'f' then some (Char.ofNat 12)
  else if e = 'n' then some '\n'
  else if e = 'r' then some '\r'
  else if e = 't' then some '\t'
  else none

/-- Standard decoding of a JSON string literal, started after the opening quote: the
decoded text and what follows the closing quote.  (Escapes of surrogate pairs, which
`json.Marshal` never writes, are outside this model.) -/
def jsonUnquote : List Char → Option (List Char × List Char)
  | [] => none
  | c :: cs =>
    if c = Char.ofNat 34 then some ([], cs)
    else if c = Char.ofNat 92 then
      match cs with
      | [] => none
      | e :: rest =>
        if e = 'u' then
          match rest with
          | h1 :: h2 :: h3 :: h4 :: rest2 =>
            if ishex h1 && ishex h2 && ishex h3 && ishex h4 then
              (jsonUnquote rest2).map fun r =>
                (Char.ofNat (4096 * unhex h1 + 256 * unhex h2 + 16 * unhex h3 + unhex h4) :: r.1,
                  r.2)
            else none
          | _ => none
        else
          match jsonSimpleEscape e with
          | some x => (jsonUnquote rest).map fun r => (x :: r.1, r.2)
          | none => none
    else if c.toNat < 32 then none
    else (jsonUnquote cs).map fun r => (c :: r.1, r.2)

/-- Decoding of a compact JSON object with the single string field `Path`: the value
of the field. -/
def jsonUnmarshalPath (body : String) : Option String :=
  if body.data.take 9 = ['\x7b', Char.ofNat 34, 'P', 'a', 't', 'h', Char.ofNat 34, ':', Char.ofNat 34] then
    match jsonUnquote (body.data.drop 9) with
    | some (text, rest) => if rest = ['\x7d'] then some (String.mk text) else none
    | none => none
  else none

/-! ## Runs of the program -/

/-- An `http.Response` as far as the program looks at it: the status code and the
result of reading the body with `ioutil.ReadAll` (`none` when reading fails). -/
structure Response where
  statusCode : Int
  body : Option String
deriving DecidableEq

/-- Result of `client.Do`: either a transport error (the response is `nil`), or a
response (the error is `nil`).  The remaining case of `client.Do`, an error together
with the last redirect response, is left out: the helpers treat it like a response
with a status other than 200. -/
inductive DoResult where
  | transportError (err : String)
  | response (res : Response)
deriving DecidableEq

/-- The observable steps of a run, in the order in which they happen. -/
inductive Event where
  /-- A line written with `log.Printf` / `log.Println` / `log.Fatalf` (its format). -/
  | log (format : String)
  /-- The call `cli.ShowSubcommandHelp(c)`. -/
  | showSubcommandHelp
  /-- The statement `go coordinator.Serve()`. -/
  | serve
  /-- The call `coordinator.GetID(file)` and the id it returned. -/
  | coordGetID (file : String) (id : String)
  /-- The call `coordinator.Wait()`. -/
  | coordWait
  /-- The call `client.Do(req)` and its result. -/
  | httpDo (req : Request) (res : DoResult)
  /-- The call `exec.Command(name, arg...).Start()` and whether it failed. -/
  | commandStart (name : String) (arg : List String) (failed : Bool)
deriving DecidableEq

/-- What the program cannot decide by itself.  A run sends at most one request of
each kind and asks the coordinator for at most one id, so an answer may depend on the
question only. -/
structure Env where
  /-- The value of `runtime.GOOS`. -/
  goos : String
  /-- Whether `coordinator.New(port)` succeeds (`err == nil`), i.e. this process
  becomes the coordinator. -/
  coordinatorNew : Int → Bool
  /-- The id `coordinator.GetID(file)` returns. -/
  coordGetID : String → String
  /-- The result of `client.Do(req)`. -/
  clientDo : Request → DoResult
  /-- Whether `command.Start()` fails for the given program name and arguments. -/
  startFails : String → List String → Bool

/-- How a run ends: by returning, through `log.Fatalf` (which exits the process), or
by a run-time panic. -/
inductive Outcome (α : Type) where
  | returned (a : α)
  | fatal (format : String)
  | panicked (msg : String)
deriving DecidableEq

/-- The events of a run and the way it ended. -/
structure Run (α : Type) where
  trace : List Event
  outcome : Outcome α

/-- A program: from the events so far to the run. -/
def Prog (α : Type) : Type := List Event → Run α

/-- Sequencing: the second program runs only when the first one returned. -/
def Prog.bind {α β : Type} (m : Prog α) (f : α → Prog β) : Prog β := fun tr =>
  match m tr with
  | ⟨tr1, .returned a⟩ => f a tr1
  | ⟨tr1, .fatal s⟩ => ⟨tr1, .fatal s⟩
  | ⟨tr1, .panicked s⟩ => ⟨tr1, .panicked s⟩

instance : Monad Prog where
  pure a := fun tr => ⟨tr, .returned a⟩
  bind := Prog.bind

/-- Performs one event. -/
def emit (e : Event) : Prog Unit := fun tr => ⟨tr ++ [e], .returned ()⟩

/-- The functions `log.Printf` and `log.Println`. -/
def logf (format : String) : Prog Unit := emit (.log format)

/-- The function `log.Fatalf`: writes the line and exits. -/
def fatalf {α : Type} (format : String) : Prog α := fun tr =>
  ⟨tr ++ [.log format], .fatal format⟩

/-- A run-time panic. -/
def goPanic {α : Type} (msg : String) : Prog α := fun tr => ⟨tr, .panicked msg⟩

/-- Reading a field through a `*http.Response`: panics on the `nil` pointer. -/
def deref (res : Option Response) : Prog Response :=
  match res with
  | some r => pure r
  | none => goPanic "runtime error: invalid memory address or nil pointer dereference"

/-- The call `client.Do(req)`: records the call and yields the pair `(res, err)`. -/
def clientDo (env : Env) (req : Request) : Prog (Option Response × Option String) := fun tr =>
  match env.clientDo req with
  | .transportError e => ⟨tr ++ [.httpDo req (.transportError e)], .returned (none, some e)⟩
  | .response r => ⟨tr ++ [.httpDo req (.response r)], .returned (some r, none)⟩

/-- The call `coordinator.GetID(file)`: records the call and yields the id. -/
def coordGetID (env : Env) (file : String) : Prog String := fun tr =>
  ⟨tr ++ [.coordGetID file (env.coordGetID file)], .returned (env.coordGetID file)⟩

/-- The condition `err != nil || res.StatusCode != http.StatusOK`, evaluated left to
right: the status code is read only when `err` is `nil`. -/
def errOrNotOK (res : Option Response) (err : Option String) : Prog Bool :=
  if err.isSome then pure true
  else do
    let r ← deref res
    pure (decide (r.statusCode ≠ 200))

/-- The values of the global flags `port`, `browser` and `l`. -/
structure Flags where
  port : Int
  browser : String
  shouldLaunch : Bool

/-- The function `c.Args().First()`: the first argument, or the empty string. -/
def First (args : List String) : String := args.headD ""

/-! ## The program -/

/-- The function `launchBrowser`. -/
def launchBrowser (env : Env) (flags : Flags) (id : String) : Prog Unit := do
  let args0 : List String :=
    if flags.browser = "" then
      if env.goos = "darwin" then ["open", "-g"]
      else if env.goos = "linux" then ["xdg-open"]
      else if env.goos = "windows" then ["cmd", "/C", "start", "/B"]
      else []
    else [flags.browser]
  if args0.length = 0 then
    logf "error: could not determine how to launch browser"
  let args := args0 ++ ["http://localhost:" ++ Itoa flags.port ++ "?id=" ++ id]
  logf "launch browser cmd: args=%v\n"
  match args with
  | [] => goPanic "runtime error: index out of range"
  | name :: arg =>
    let failed := env.startFails name arg
    emit (.commandStart name arg failed)
    if failed then
      logf "error: could not launch browser: %v\n"

/-- The function `addFile`. -/
def addFile (env : Env) (flags : Flags) (filePath : String) : Prog Unit := do
  match jsonMarshalPath filePath with
  | .error _ => fatalf "error: could not marshal filePath: error=%q\n"
  | .ok marshalled =>
    match newRequest "POST" ("http://localhost:" ++ Itoa flags.port) (some marshalled) with
    | .error _ => fatalf "error: could create http request: error=%q\n"
    | .ok req =>
      let (res, err) ← clientDo env req
      if (← errOrNotOK res err) then
        -- the arguments `err, res.StatusCode` are evaluated before the call
        let _ ← deref res
        fatalf "error: could not preview markdown file: err=%q; statusCode=%q\n"

/-- The function `getID`. -/
def getID (env : Env) (flags : Flags) (filePath : String) : Prog String := do
  match newRequest "GET" ("http://localhost:" ++ Itoa flags.port ++ "/getid?path=" ++ filePath) none with
  | .error _ => fatalf "error: could create http getID request: error=%q\n"
  | .ok req =>
    let (res, err) ← clientDo env req
    if (← errOrNotOK res err) then
      let _ ← deref res
      fatalf "error: could not get ID of the file: err=%q; statusCode=%q\n"
    else
      let r ← deref res
      match r.body with
      | none => fatalf "error: could not get ID of the file from body: err=%q\n"
      | some data => pure data

/-- The function `killServer`. -/
def killServer (env : Env) (flags : Flags) : Prog Unit := do
  match newRequest "DELETE" ("http://localhost:" ++ Itoa flags.port) none with
  | .error _ => fatalf "error: could not create shutdown request: error=%q\n"
  | .ok req =>
    let (res, err) ← clientDo env req
    if (← errOrNotOK res err) then
      let _ ← deref res
      fatalf "error: could not shutdown server: error=%q; statusCode=%q\n"

/-- The function `killFile`. -/
def killFile (env : Env) (flags : Flags) (file : String) : Prog Unit := do
  match newRequest "DELETE" ("http://localhost:" ++ Itoa flags.port ++ "?id=" ++ file) none with
  | .error _ => fatalf "error: could not create delete file request: error=%q\n"
  | .ok req =>
    let (res, err) ← clientDo env req
    if (← errOrNotOK res err) then
      let _ ← deref res
      fatalf "error: could not delete file: error=%q; statusCode=%q\n"

/-- The command `start`. -/
def start (env : Env) (flags : Flags) (args : List String) : Prog Unit := do
  let file := First args
  if file = "" then
    emit .showSubcommandHelp
  else
    logf "start command: port=%d; shouldLaunch=%v, browser=%q; file=%q"
    if env.coordinatorNew flags.port then
      emit .serve
      addFile env flags file
      if flags.shouldLaunch then
        let uniqueID ← coordGetID env file
        if uniqueID ≠ "" then
          launchBrowser env flags uniqueID
        else
          logf "error: could not get uniqueID to launch browser"
      emit .coordWait
    else
      logf "error: could not start coordinator: will try to POST: err=%q\n"
      addFile env flags file
      if flags.shouldLaunch then
        let uniqueID ← getID env flags file
        if uniqueID ≠ "" then
          launchBrowser env flags uniqueID

/-- The command `stop`. -/
def stop (env : Env) (flags : Flags) (args : List String) : Prog Unit := do
  let file := First args
  logf "stop command: port=%d; file=%q\n"
  if file = "" then
    killServer env flags
  else
    killFile env flags file

/-! ## Observations on runs -/

/-- The requests sent with `client.Do`, in order. -/
def requests (tr : List Event) : List Request :=
  tr.filterMap fun e =>
    match e with
    | .httpDo req _ => some req
    | _ => none

/-- The commands started (program name followed by its arguments), in order. -/
def commands (tr : List Event) : List (List String) :=
  tr.filterMap fun e =>
    match e with
    | .commandStart name arg _ => some (name :: arg)
    | _ => none

/-- The launcher part of the argument list built by `launchBrowser` (everything
before the URL). -/
def launcher (env : Env) (flags : Flags) : List String :=
  if flags.browser = "" then
    if env.goos = "darwin" then ["open", "-g"]
    else if env.goos = "linux" then ["xdg-open"]
    else if env.goos = "windows" then ["cmd", "/C", "start", "/B"]
    else []
  else [flags.browser]

/-- What `addFile`, `killServer` and `killFile` do once the request `req` is built,
as a function of the result of `client.Do`. -/
def afterDo (fatalFormat : String) (req : Request) (d : DoResult) (tr : List Event) : Run Unit :=
  match d with
  | .transportError e =>
    ⟨tr ++ [.httpDo req (.transportError e)],
      .panicked "runtime error: invalid memory address or nil pointer dereference"⟩
  | .response r =>
    if r.statusCode = 200 then ⟨tr ++ [.httpDo req (.response r)], .returned ()⟩
    else ⟨tr ++ [.httpDo req (.response r), .log fatalFormat], .fatal fatalFormat⟩

/-- What `getID` does once the request `req` is built, as a function of the result of
`client.Do`. -/
def afterDoGetID (req : Request) (d : DoResult) (tr : List Event) : Run String :=
  match d with
  | .transportError e =>
    ⟨tr ++ [.httpDo req (.transportError e)],
      .panicked "runtime error: invalid memory address or nil pointer dereference"⟩
  | .response r =>
    if r.statusCode = 200 then
      match r.body with
      | some data => ⟨tr ++ [.httpDo req (.response r)], .returned data⟩
      | none =>
        ⟨tr ++ [.httpDo req (.response r),
            .log "error: could not get ID of the file from body: err=%q\n"],
          .fatal "error: could not get ID of the file from body: err=%q\n"⟩
    else
      ⟨tr ++ [.httpDo req (.response r),
          .log "error: could not get ID of the file: err=%q; statusCode=%q\n"],
        .fatal "error: could not get ID of the file: err=%q; statusCode=%q\n"⟩

/-- The id obtained for the file during a run, if any: the value returned by
`coordinator.GetID` (coordinator mode), or the body of a status-200 answer to a GET
request (client mode). -/
def obtainedID (tr : List Event) : Option String :=
  tr.findSome? fun e =>
    match e with
    | .coordGetID _ id => some id
    | .httpDo req (.response r) =>
      if req.method = "GET" ∧ r.statusCode = 200 then r.body else none
    | _ => none

/-- A successful Add request for the file: a POST carrying the JSON of the file path
that was answered with status 200. -/
def isAddOK (file : String) : Event → Bool
  | .httpDo req (.response r) =>
    decide (req.method = "POST") && decide (req.body = (jsonMarshalPath file).toOption) &&
      decide (r.statusCode = 200)
  | _ => false

/-- A command start. -/
def isCommandStart : Event → Bool
  | .commandStart _ _ _ => true
  | _ => false

/-- The Add request for the file succeeded before the first command was started. -/
def addOKBeforeLaunch (file : String) (tr : List Event) : Bool :=
  (tr.takeWhile fun e => !isCommandStart e).any (isAddOK file)

/-- An environment for examples: the operating system, whether the port can be bound,
and the answer of the HTTP client are given; the coordinator knows every file under
the id `5d41402a`, and commands start without error. -/
def sampleEnv (goos : String) (bound : Bool) (answer : Request → DoResult) : Env :=
  ⟨goos, fun _ => bound, fun _ => "5d41402a", answer, fun _ _ => false⟩

/-- A coordinator that answers every request with status 200 and the body `5d41402a`. -/
def answerOK (_ : Request) : DoResult := .response ⟨200, some "5d41402a"⟩

/-- A coordinator that cannot be reached: every request ends in a transport error. -/
def answerRefused (_ : Request) : DoResult := .transportError "connection refused"

/-- A coordinator that answers every request with status 500. -/
def answerServerError (_ : Request) : DoResult := .response ⟨500, some ""⟩

/-- The text has none of the characters `#`, `&`, `;`, `%` and `+`, which have a
special meaning in a URL query: put into a query value as it is, it is read back as
it is. -/
def queryPlain (s : String) : Bool :=
  s.data.all fun c => !(c == '#' || c == '&' || c == ';' || c == '%' || c == '+')

/-- A coordinator that answers every request with status 200 and a body that cannot
be read. -/
def answerUnreadable (_ : Request) : DoResult := .response ⟨200, none⟩

/-! ## Normal forms of the helpers -/

@[simp] theorem Prog.bind_apply {α β : Type} (m : Prog α) (f : α → Prog β) (tr : List Event) :
    (m >>= f) tr = Prog.bind m f tr := rfl

@[simp] theorem Prog.pure_apply {α : Type} (a : α) (tr : List Event) :
    (pure a : Prog α) tr = ⟨tr, .returned a⟩ := rfl

theorem killServer_eq (env : Env) (flags : Flags) (tr : List Event) :
    killServer env flags tr =
      match newRequest "DELETE" ("http://localhost:" ++ Itoa flags.port) none with
      | .error _ => ⟨tr ++ [.log "error: could not create shutdown request: error=%q\n"],
          .fatal "error: could not create shutdown request: error=%q\n"⟩
      | .ok req => afterDo "error: could not shutdown server: error=%q; statusCode=%q\n" req
          (env.clientDo req) tr := by
  unfold killServer
  cases h : newRequest "DELETE" ("http://localhost:" ++ Itoa flags.port) none with
  | error e => simp [fatalf]
  | ok req =>
    simp only [Prog.bind_apply, Prog.bind, clientDo, afterDo]
    cases hd : env.clientDo req with
    | transportError e => simp [errOrNotOK, deref, goPanic, Prog.bind]
    | response r =>
      by_cases hs : r.statusCode = 200 <;>
        simp [errOrNotOK, deref, goPanic, Prog.bind, hs, fatalf]

theorem killFile_eq (env : Env) (flags : Flags) (file : String) (tr : List Event) :
    killFile env flags file tr =
      match newRequest "DELETE" ("http://localhost:" ++ Itoa flags.port ++ "?id=" ++ file) none with
      | .error _ => ⟨tr ++ [.log "error: could not create delete file request: error=%q\n"],
          .fatal "error: could not create delete file request: error=%q\n"⟩
      | .ok req => afterDo "error: could not delete file: error=%q; statusCode=%q\n" req
          (env.clientDo req) tr := by
  unfold killFile
  cases h : newRequest "DELETE" ("http://localhost:" ++ Itoa flags.port ++ "?id=" ++ file) none with
  | error e => simp [fatalf]
  | ok req =>
    simp only [Prog.bind_apply, Prog.bind, clientDo, afterDo]
    cases hd : env.clientDo req with
    | transportError e => simp [errOrNotOK, deref, goPanic, Prog.bind]
    | response r =>
      by_cases hs : r.statusCode = 200 <;>
        simp [errOrNotOK, deref, goPanic, Prog.bind, hs, fatalf]

theorem addFile_eq (env : Env) (flags : Flags) (filePath : String) (tr : List Event) :
    addFile env flags filePath tr =
      match jsonMarshalPath filePath with
      | .error _ => ⟨tr ++ [.log "error: could not marshal filePath: error=%q\n"],
          .fatal "error: could not marshal filePath: error=%q\n"⟩
      | .ok marshalled =>
        match newRequest "POST" ("http://localhost:" ++ Itoa flags.port) (some marshalled) with
        | .error _ => ⟨tr ++ [.log "error: could create http request: error=%q\n"],
            .fatal "error: could create http request: error=%q\n"⟩
        | .ok req => afterDo "error: could not preview markdown file: err=%q; statusCode=%q\n" req
            (env.clientDo req) tr := by
  unfold addFile
  cases hj : jsonMarshalPath filePath with
  | error e => simp [fatalf]
  | ok marshalled =>
    simp only []
    cases h : newRequest "POST" ("http://localhost:" ++ Itoa flags.port) (some marshalled) with
    | error e => simp [fatalf]
    | ok req =>
      simp only [Prog.bind_apply, Prog.bind, clientDo, afterDo]
      cases hd : env.clientDo req with
      | transportError e => simp [errOrNotOK, deref, goPanic, Prog.bind]
      | response r =>
        by_cases hs : r.statusCode = 200 <;>
          simp [errOrNotOK, deref, goPanic, Prog.bind, hs, fatalf]

theorem getID_eq (env : Env) (flags : Flags) (filePath : String) (tr : List Event) :
    getID env flags filePath tr =
      match newRequest "GET"
          ("http://localhost:" ++ Itoa flags.port ++ "/getid?path=" ++ filePath) none with
      | .error _ => ⟨tr ++ [.log "error: could create http getID request: error=%q\n"],
          .fatal "error: could create http getID request: error=%q\n"⟩
      | .ok req => afterDoGetID req (env.clientDo req) tr := by
  unfold getID
  cases h : newRequest "GET"
      ("http://localhost:" ++ Itoa flags.port ++ "/getid?path=" ++ filePath) none with
  | error e => simp [fatalf]
  | ok req =>
    simp only [Prog.bind_apply, Prog.bind, clientDo, afterDoGetID]
    cases hd : env.clientDo req with
    | transportError e => simp [errOrNotOK, deref, goPanic, Prog.bind]
    | response r =>
      by_cases hs : r.statusCode = 200
      · cases hb : r.body <;> simp [errOrNotOK, deref, goPanic, Prog.bind, hs, fatalf, hb]
      · simp [errOrNotOK, deref, goPanic, Prog.bind, hs, fatalf]

theorem launchBrowser_eq (env : Env) (flags : Flags) (id : String) (tr : List Event) :
    launchBrowser env flags id tr =
      ⟨tr ++ (if launcher env flags = [] then
                [.log "error: could not determine how to launch browser"] else []) ++
          [.log "launch browser cmd: args=%v\n",
            .commandStart
              ((launcher env flags ++ ["http://localhost:" ++ Itoa flags.port ++ "?id=" ++ id]).headD "")
              (launcher env flags ++ ["http://localhost:" ++ Itoa flags.port ++ "?id=" ++ id]).tail
              (env.startFails
                ((launcher env flags ++ ["http://localhost:" ++ Itoa flags.port ++ "?id=" ++ id]).headD "")
                (launcher env flags ++ ["http://localhost:" ++ Itoa flags.port ++ "?id=" ++ id]).tail)] ++
          (if env.startFails
                ((launcher env flags ++ ["http://localhost:" ++ Itoa flags.port ++ "?id=" ++ id]).headD "")
                (launcher env flags ++ ["http://localhost:" ++ Itoa flags.port ++ "?id=" ++ id]).tail
            then [.log "error: could not launch browser: %v\n"] else []),
        .returned ()⟩ := by
  unfold launchBrowser
  simp only [← launcher.eq_1 env flags]
  cases hl : launcher env flags with
  | nil =>
    cases hf : env.startFails ("http://localhost:" ++ Itoa flags.port ++ "?id=" ++ id) [] <;>
      simp [Prog.bind, logf, emit, hf]
  | cons a l =>
    cases hf : env.startFails a (l ++ ["http://localhost:" ++ Itoa flags.port ++ "?id=" ++ id]) <;>
      simp [Prog.bind, logf, emit, hf]

theorem commands_launchBrowser (env : Env) (flags : Flags) (id : String) (tr : List Event) :
    commands (launchBrowser env flags id tr).trace =
      commands tr ++ [launcher env flags ++ ["http://localhost:" ++ Itoa flags.port ++ "?id=" ++ id]] := by
  rw [launchBrowser_eq]
  cases hl : launcher env flags <;> simp [commands, List.filterMap_append]


theorem stop_eq (env : Env) (flags : Flags) (args : List String) (tr : List Event) :
    stop env flags args tr =
      if First args = "" then
        killServer env flags (tr ++ [.log "stop command: port=%d; file=%q\n"])
      else killFile env flags (First args) (tr ++ [.log "stop command: port=%d; file=%q\n"]) := by
  unfold stop
  by_cases h : First args = "" <;> simp [h, Prog.bind, logf, emit]

theorem launchBrowser_outcome (env : Env) (flags : Flags) (id : String) (tr : List Event) :
    (launchBrowser env flags id tr).outcome = .returned () := by
  rw [launchBrowser_eq]

theorem start_coordinator_eq (env : Env) (flags : Flags) (args : List String) (tr : List Event)
    (hfile : First args ≠ "") (hc : env.coordinatorNew flags.port = true) :
    start env flags args tr =
      match addFile env flags (First args)
          (tr ++ [.log "start command: port=%d; shouldLaunch=%v, browser=%q; file=%q", .serve]) with
      | ⟨tr1, .returned _⟩ =>
        if flags.shouldLaunch = true then
          if env.coordGetID (First args) = "" then
            ⟨tr1 ++ [.coordGetID (First args) (env.coordGetID (First args)),
                .log "error: could not get uniqueID to launch browser", .coordWait], .returned ()⟩
          else
            ⟨(launchBrowser env flags (env.coordGetID (First args))
                (tr1 ++ [.coordGetID (First args) (env.coordGetID (First args))])).trace ++
              [.coordWait], .returned ()⟩
        else ⟨tr1 ++ [.coordWait], .returned ()⟩
      | ⟨tr1, .fatal s⟩ => ⟨tr1, .fatal s⟩
      | ⟨tr1, .panicked s⟩ => ⟨tr1, .panicked s⟩ := by
  unfold start
  simp only [hfile, hc, if_true, if_false, Prog.bind_apply, Prog.bind, logf, emit,
    List.append_assoc, List.singleton_append, Bool.false_eq_true]
  generalize addFile env flags (First args)
      (tr ++ [.log "start command: port=%d; shouldLaunch=%v, browser=%q; file=%q", .serve]) = r
  rcases r with ⟨tr1, o⟩
  cases o with
  | returned a =>
    by_cases hl : flags.shouldLaunch = true
    · by_cases hid : env.coordGetID (First args) = ""
      · simp [hl, hid, Prog.bind, coordGetID, logf, emit]
      · have ho := launchBrowser_outcome env flags (env.coordGetID (First args))
          (tr1 ++ [.coordGetID (First args) (env.coordGetID (First args))])
        simp only [hl, hid, Prog.bind, coordGetID, logf, emit, if_true, if_false, Prog.bind_apply,
          ne_eq, not_false_eq_true]
        revert ho
        generalize launchBrowser env flags (env.coordGetID (First args))
          (tr1 ++ [.coordGetID (First args) (env.coordGetID (First args))]) = r2
        rcases r2 with ⟨t2, o2⟩
        intro ho
        simp only at ho
        subst ho
        simp
    · simp [hl, Prog.bind, emit]
  | fatal s => simp
  | panicked s => simp

theorem start_client_eq (env : Env) (flags : Flags) (args : List String) (tr : List Event)
    (hfile : First args ≠ "") (hc : env.coordinatorNew flags.port = false) :
    start env flags args tr =
      match addFile env flags (First args)
          (tr ++ [.log "start command: port=%d; shouldLaunch=%v, browser=%q; file=%q",
            .log "error: could not start coordinator: will try to POST: err=%q\n"]) with
      | ⟨tr1, .returned _⟩ =>
        if flags.shouldLaunch = true then
          match getID env flags (First args) tr1 with
          | ⟨tr2, .returned uniqueID⟩ =>
            if uniqueID = "" then ⟨tr2, .returned ()⟩
            else ⟨(launchBrowser env flags uniqueID tr2).trace, .returned ()⟩
          | ⟨tr2, .fatal s⟩ => ⟨tr2, .fatal s⟩
          | ⟨tr2, .panicked s⟩ => ⟨tr2, .panicked s⟩
        else ⟨tr1, .returned ()⟩
      | ⟨tr1, .fatal s⟩ => ⟨tr1, .fatal s⟩
      | ⟨tr1, .panicked s⟩ => ⟨tr1, .panicked s⟩ := by
  unfold start
  simp only [hfile, hc, if_true, if_false, Prog.bind_apply, Prog.bind, logf, emit,
    List.append_assoc, List.singleton_append, Bool.false_eq_true]
  generalize addFile env flags (First args)
      (tr ++ [.log "start command: port=%d; shouldLaunch=%v, browser=%q; file=%q",
            .log "error: could not start coordinator: will try to POST: err=%q\n"]) = r
  rcases r with ⟨tr1, o⟩
  cases o with
  | returned a =>
    by_cases hl : flags.shouldLaunch = true
    · simp only [hl, if_true, Prog.bind_apply, Prog.bind]
      generalize getID env flags (First args) tr1 = r2
      rcases r2 with ⟨tr2, o2⟩
      cases o2 with
      | returned uid =>
        by_cases hid : uid = ""
        · simp [hid]
        · have ho := launchBrowser_outcome env flags uid tr2
          simp only [hid, if_false, ne_eq, not_false_eq_true, if_true]
          revert ho
          generalize launchBrowser env flags uid tr2 = r3
          rcases r3 with ⟨t3, o3⟩
          intro ho
          simp only at ho
          subst ho
          rfl
      | fatal s => simp
      | panicked s => simp
    · simp [hl]
  | fatal s => simp
  | panicked s => simp

/-! ## The URLs built by the program -/

theorem digitChar_isDigit (n : Nat) : (Nat.digitChar (n % 10)).isDigit = true := by
  have h : n % 10 < 10 := Nat.mod_lt n (by decide)
  interval_cases n % 10 <;> decide

theorem toDigitsCore_isDigit (fuel : Nat) :
    ∀ (n : Nat) (ds : List Char), (∀ c ∈ ds, c.isDigit = true) →
      ∀ c ∈ Nat.toDigitsCore 10 fuel n ds, c.isDigit = true := by
  induction fuel with
  | zero => intro n ds h c hc; simpa [Nat.toDigitsCore] using h c hc
  | succ fuel ih =>
    intro n ds h c hc
    simp only [Nat.toDigitsCore] at hc
    have hds : ∀ c ∈ Nat.digitChar (n % 10) :: ds, c.isDigit = true := by
      intro c hc
      rcases List.mem_cons.mp hc with h1 | h1
      · rw [h1]; exact digitChar_isDigit n
      · exact h c h1
    split at hc
    · exact hds c hc
    · exact ih _ _ hds c hc

theorem repr_isDigit (n : Nat) : ∀ c ∈ (Nat.repr n).data, c.isDigit = true := by
  intro c hc
  have : (Nat.repr n).data = Nat.toDigitsCore 10 (n + 1) n [] := rfl
  rw [this] at hc
  exact toDigitsCore_isDigit _ _ _ (by simp) c hc

/-- The decimal rendering of the port consists of digits and possibly a minus sign. -/
theorem Itoa_chars (p : Int) : ∀ c ∈ (Itoa p).data, c.isDigit = true ∨ c = '-' := by
  intro c hc
  cases p with
  | ofNat n => exact Or.inl (repr_isDigit n c hc)
  | negSucc n =>
    simp only [Itoa, String.data_append] at hc
    rcases List.mem_append.mp hc with h | h
    · right; simpa using h
    · exact Or.inl (repr_isDigit _ c h)


theorem cut_append_left (sep : Char) (l m : List Char) (h : ∀ c ∈ l, c ≠ sep) :
    cut sep (l ++ m) = (l ++ (cut sep m).1, (cut sep m).2) := by
  induction l with
  | nil => simp [cut]
  | cons a l ih =>
    have ha : a ≠ sep := h a (List.mem_cons_self a l)
    have ih1 := ih (fun c hc => h c (List.mem_cons_of_mem a hc))
    simp only [cut, Prod.mk.injEq] at ih1 ⊢
    simp [List.takeWhile_cons, List.dropWhile_cons, ha, ih1.1, ih1.2]

theorem cut_append_sep (sep : Char) (l q : List Char) (h : ∀ c ∈ l, c ≠ sep) :
    cut sep (l ++ sep :: q) = (l, q) := by
  rw [cut_append_left sep l _ h]
  simp [cut, List.takeWhile_cons, List.dropWhile_cons]

theorem cut_no_sep (sep : Char) (l : List Char) (h : ∀ c ∈ l, c ≠ sep) :
    cut sep l = (l, []) := by
  have := cut_append_left sep l [] h
  simpa [cut] using this

/-- The raw query of a URL accepted by `parseNoFragment` is what follows the first
question mark of the text after the scheme. -/
theorem parseNoFragment_rawQuery (raw : List Char) (u : URL) (s rest0 : List Char)
    (h : parseNoFragment raw = .ok u) (hstar : raw ≠ ['*'])
    (hs : getScheme raw = .ok (s, rest0))
    (hq : (decide (rest0.getLast? = some '?') && decide (rest0.count '?' = 1)) = false) :
    u.rawQuery = String.mk (cut '?' rest0).2 := by
  unfold parseNoFragment at h
  simp only [hstar, hs, hq, if_false, Bool.false_eq_true] at h
  repeat' split at h
  all_goals first
    | (cases h; rfl)
    | (cases h)


theorem urlParse_rawQuery (s : String) (u : URL) (h : urlParse s = .ok u) :
    ∃ u0, parseNoFragment (cut '#' s.data).1 = .ok u0 ∧ u.rawQuery = u0.rawQuery ∧
      u.path = u0.path := by
  unfold urlParse at h
  cases h0 : parseNoFragment (cut '#' s.data).1 with
  | error e => simp [h0] at h
  | ok u0 =>
    refine ⟨u0, rfl, ?_⟩
    simp only [h0] at h
    by_cases hf : (cut '#' s.data).2 = []
    · simp only [hf, if_true] at h
      cases h
      exact ⟨rfl, rfl⟩
    · simp only [hf, if_false] at h
      cases hx : unescape false (cut '#' s.data).2 with
      | none => simp [hx] at h
      | some frag =>
        simp only [hx] at h
        cases h
        exact ⟨rfl, rfl⟩

theorem newRequest_fields (method url : String) (body : Option String) (req : Request)
    (h : newRequest method url body = .ok req) :
    req.method = (if method = "" then "GET" else method) ∧ req.url = url ∧ req.body = body ∧
      ∃ u, urlParse url = .ok u ∧ req.parsed.rawQuery = u.rawQuery ∧ req.parsed.path = u.path := by
  unfold newRequest at h
  simp only at h
  by_cases hv : validMethod (if method = "" then "GET" else method) = true
  · simp only [hv, if_true] at h
    cases hu : urlParse url with
    | error e => simp [hu] at h
    | ok u =>
      simp only [hu] at h
      cases h
      exact ⟨rfl, rfl, rfl, u, rfl, rfl, rfl⟩
  · simp [hv] at h

/-- The characters of `//localhost:<port>`. -/
theorem authority_chars (p : Int) :
    ∀ c ∈ ['/', '/', 'l', 'o', 'c', 'a', 'l', 'h', 'o', 's', 't', ':'] ++ (Itoa p).data,
      c ≠ '?' ∧ c ≠ '#' := by
  intro c hc
  rcases List.mem_append.mp hc with h | h
  · have hall : ∀ c ∈ ['/', '/', 'l', 'o', 'c', 'a', 'l', 'h', 'o', 's', 't', ':'],
        c ≠ '?' ∧ c ≠ '#' := by decide
    exact hall c h
  · rcases Itoa_chars p c h with hd | hd
    · constructor <;> (rintro rfl; exact absurd hd (by decide))
    · subst hd; decide

theorem getScheme_http (rest : List Char) :
    getScheme ('h' :: 't' :: 't' :: 'p' :: ':' :: rest) = .ok (['h', 't', 't', 'p'], rest) := by
  rfl


theorem http_chars : ∀ c ∈ ['h', 't', 't', 'p', ':'], c ≠ '#' := by decide

theorem parse_http_no_query (R : List Char) (hR : ∀ c ∈ R, c ≠ '?' ∧ c ≠ '#') (u0 : URL)
    (h : parseNoFragment (cut '#' (['h', 't', 't', 'p', ':'] ++ R)).1 = .ok u0) :
    u0.rawQuery = "" := by
  have hcut : cut '#' (['h', 't', 't', 'p', ':'] ++ R) = (['h', 't', 't', 'p', ':'] ++ R, []) := by
    apply cut_no_sep
    intro c hc
    rcases List.mem_append.mp hc with h1 | h1
    · exact http_chars c h1
    · exact (hR c h1).2
  rw [hcut] at h
  have hcount : List.count '?' R = 0 := List.count_eq_zero.mpr (fun hm => (hR _ hm).1 rfl)
  have := parseNoFragment_rawQuery _ u0 _ _ h (by simp) (getScheme_http R)
    (by rw [hcount]; simp)
  rw [this, cut_no_sep '?' _ (fun c hc => (hR c hc).1)]

theorem parse_http_id_query (R F : List Char) (hR : ∀ c ∈ R, c ≠ '?' ∧ c ≠ '#') (u0 : URL)
    (h : parseNoFragment (cut '#' ((['h', 't', 't', 'p', ':'] ++ (R ++ ['?', 'i', 'd', '='])) ++ F)).1
      = .ok u0) :
    u0.rawQuery = String.mk (['i', 'd', '='] ++ (cut '#' F).1) := by
  have hcut : cut '#' ((['h', 't', 't', 'p', ':'] ++ (R ++ ['?', 'i', 'd', '='])) ++ F) =
      ((['h', 't', 't', 'p', ':'] ++ (R ++ ['?', 'i', 'd', '='])) ++ (cut '#' F).1,
        (cut '#' F).2) := by
    apply cut_append_left
    intro c hc
    rcases List.mem_append.mp hc with h1 | h1
    · exact http_chars c h1
    · rcases List.mem_append.mp h1 with h2 | h2
      · exact (hR c h2).2
      · have hall : ∀ c ∈ ['?', 'i', 'd', '='], c ≠ '#' := by decide
        exact hall c h2
  rw [hcut] at h
  have hshape : (['h', 't', 't', 'p', ':'] ++ (R ++ ['?', 'i', 'd', '='])) ++ (cut '#' F).1 =
      'h' :: 't' :: 't' :: 'p' :: ':' :: (R ++ '?' :: ('i' :: 'd' :: '=' :: (cut '#' F).1)) := by
    simp
  simp only [hshape] at h
  have hforce : (decide ((R ++ '?' :: ('i' :: 'd' :: '=' :: (cut '#' F).1)).getLast? = some '?') &&
      decide (List.count '?' (R ++ '?' :: ('i' :: 'd' :: '=' :: (cut '#' F).1)) = 1)) = false := by
    rw [Bool.and_eq_false_iff]
    by_cases hm : '?' ∈ (cut '#' F).1
    · right
      have : 0 < List.count '?' (cut '#' F).1 := List.count_pos_iff.mpr hm
      simp only [List.count_append, List.count_cons, decide_eq_false_iff_not]
      simp
      omega
    · left
      simp only [decide_eq_false_iff_not]
      intro hl
      rw [List.getLast?_append_cons, List.getLast?_cons_cons,
        List.getLast?_cons_cons, List.getLast?_cons_cons] at hl
      have := List.mem_of_getLast?_eq_some hl
      simp only [List.mem_cons] at this
      rcases this with h1 | h1
      · exact absurd h1 (by decide)
      · exact hm h1
  have := parseNoFragment_rawQuery _ u0 _ _ h (by simp) (getScheme_http _) hforce
  rw [this, cut_append_sep '?' _ _ (fun c hc => (hR c hc).1)]
  rfl

/-- The shutdown URL `http://localhost:<port>` has an empty query. -/
theorem newRequest_base_rawQuery (method : String) (p : Int) (body : Option String)
    (req : Request) (h : newRequest method ("http://localhost:" ++ Itoa p) body = .ok req) :
    req.parsed.rawQuery = "" := by
  obtain ⟨-, -, -, u, hu, hq, -⟩ := newRequest_fields _ _ _ _ h
  obtain ⟨u0, hu0, hq0, -⟩ := urlParse_rawQuery _ _ hu
  have hd : ("http://localhost:" ++ Itoa p).data = ['h', 't', 't', 'p', ':'] ++
      (['/', '/', 'l', 'o', 'c', 'a', 'l', 'h', 'o', 's', 't', ':'] ++ (Itoa p).data) := by
    simp [String.data_append]
  rw [hd] at hu0
  rw [hq, hq0, parse_http_no_query _ (authority_chars p) u0 hu0]

/-- The delete-one URL `http://localhost:<port>?id=<file>` has the raw query
`id=<file up to the first #>`. -/
theorem newRequest_id_rawQuery (method : String) (p : Int) (file : String)
    (body : Option String) (req : Request)
    (h : newRequest method ("http://localhost:" ++ Itoa p ++ "?id=" ++ file) body = .ok req) :
    req.parsed.rawQuery = "id=" ++ String.mk (cut '#' file.data).1 := by
  obtain ⟨-, -, -, u, hu, hq, -⟩ := newRequest_fields _ _ _ _ h
  obtain ⟨u0, hu0, hq0, -⟩ := urlParse_rawQuery _ _ hu
  have hd : ("http://localhost:" ++ Itoa p ++ "?id=" ++ file).data =
      (['h', 't', 't', 'p', ':'] ++
        ((['/', '/', 'l', 'o', 'c', 'a', 'l', 'h', 'o', 's', 't', ':'] ++ (Itoa p).data) ++
          ['?', 'i', 'd', '='])) ++ file.data := by
    simp [String.data_append]
  rw [hd] at hu0
  rw [hq, hq0, parse_http_id_query _ _ (authority_chars p) u0 hu0]
  rfl


theorem requests_append (a b : List Event) : requests (a ++ b) = requests a ++ requests b := by
  simp [requests, List.filterMap_append]

theorem commands_append (a b : List Event) : commands (a ++ b) = commands a ++ commands b := by
  simp [commands, List.filterMap_append]

theorem requests_afterDo (fmt : String) (req : Request) (d : DoResult) (tr : List Event) :
    requests (afterDo fmt req d tr).trace = requests tr ++ [req] := by
  cases d with
  | transportError e => simp [afterDo, requests, List.filterMap_append]
  | response r =>
    by_cases hs : r.statusCode = 200 <;> simp [afterDo, requests, hs, List.filterMap_append]

theorem commands_afterDo (fmt : String) (req : Request) (d : DoResult) (tr : List Event) :
    commands (afterDo fmt req d tr).trace = commands tr := by
  cases d with
  | transportError e => simp [afterDo, commands, List.filterMap_append]
  | response r =>
    by_cases hs : r.statusCode = 200 <;> simp [afterDo, commands, hs, List.filterMap_append]

theorem requests_afterDoGetID (req : Request) (d : DoResult) (tr : List Event) :
    requests (afterDoGetID req d tr).trace = requests tr ++ [req] := by
  cases d with
  | transportError e => simp [afterDoGetID, requests, List.filterMap_append]
  | response r =>
    by_cases hs : r.statusCode = 200
    · cases hb : r.body <;> simp [afterDoGetID, requests, hs, hb, List.filterMap_append]
    · simp [afterDoGetID, requests, hs, List.filterMap_append]

theorem commands_afterDoGetID (req : Request) (d : DoResult) (tr : List Event) :
    commands (afterDoGetID req d tr).trace = commands tr := by
  cases d with
  | transportError e => simp [afterDoGetID, commands, List.filterMap_append]
  | response r =>
    by_cases hs : r.statusCode = 200
    · cases hb : r.body <;> simp [afterDoGetID, commands, hs, hb, List.filterMap_append]
    · simp [afterDoGetID, commands, hs, List.filterMap_append]

theorem requests_launchBrowser (env : Env) (flags : Flags) (id : String) (tr : List Event) :
    requests (launchBrowser env flags id tr).trace = requests tr := by
  rw [launchBrowser_eq]
  simp only [requests_append]
  have h1 : ∀ (c : Prop) [Decidable c] (e : Event), (∀ r d, e ≠ .httpDo r d) →
      requests (if c then [e] else []) = [] := by
    intro c _ e he
    cases e <;> first
      | (exact absurd rfl (he _ _))
      | (split <;> rfl)
  rw [h1 _ _ (by intro r d; simp), h1 _ _ (by intro r d; simp)]
  simp [requests]


/-! ## The JSON body -/

theorem unhex_digitChar (k : Nat) (hk : k < 16) :
    ishex (Nat.digitChar k) = true ∧ unhex (Nat.digitChar k) = k := by
  interval_cases k <;> decide

theorem jsonUnquote_cons (c : Char) (tail : List Char) (s rest : List Char)
    (ih : jsonUnquote tail = some (s, rest)) :
    jsonUnquote (jsonEscapeChar c ++ tail) = some (c :: s, rest) := by
  unfold jsonEscapeChar
  split
  · rename_i h; subst h
    rw [jsonUnquote.eq_def]
    simp [jsonSimpleEscape, ih]
  split
  · rename_i h; subst h
    rw [jsonUnquote.eq_def]
    simp [jsonSimpleEscape, ih]
  split
  · rename_i h; subst h
    rw [jsonUnquote.eq_def]
    simp [jsonSimpleEscape, ih]
  split
  · rename_i h; subst h
    rw [jsonUnquote.eq_def]
    simp [jsonSimpleEscape, ih]
  split
  · rename_i h; subst h
    rw [jsonUnquote.eq_def]
    simp [jsonSimpleEscape, ih]
  split
  · rename_i h; subst h
    rw [jsonUnquote.eq_def]
    simp [jsonSimpleEscape, ih]
  split
  · rename_i h; subst h
    rw [jsonUnquote.eq_def]
    simp [jsonSimpleEscape, ih]
  split
  · rename_i h1 h2 h3 h4 h5 h6 h7 h
    have hlt : c.toNat < 256 := by
      rcases h with h | h | h | h
      · omega
      · subst h; decide
      · subst h; decide
      · subst h; decide
    have hd1 := unhex_digitChar (c.toNat / 16) (by omega)
    have hd2 := unhex_digitChar (c.toNat % 16) (by omega)
    have h0 : ishex '0' = true ∧ unhex '0' = 0 := by decide
    have hval : 16 * (c.toNat / 16) + c.toNat % 16 = c.toNat := by omega
    rw [jsonUnquote.eq_def]
    simp [ih, hd1.1, hd1.2, hd2.1, hd2.2, h0.1, h0.2, hval]
  split
  · rename_i h
    have hc : c = Char.ofNat 8232 := by rw [← h, Char.ofNat_toNat]
    subst hc
    rw [jsonUnquote.eq_def]
    simp [ih]
    decide
  split
  · rename_i h
    have hc : c = Char.ofNat 8233 := by rw [← h, Char.ofNat_toNat]
    subst hc
    rw [jsonUnquote.eq_def]
    simp [ih]
    decide
  · rename_i h1 h2 h3 h4 h5 h6 h7 h8 h9 h10
    have hlt : ¬ c.toNat < 32 := fun h => h8 (Or.inl h)
    rw [jsonUnquote.eq_def]
    simp [ih, h1, h2, hlt]

/-- Decoding the escaped text gives the text back. -/
theorem jsonUnquote_escape (s rest : List Char) :
    jsonUnquote (s.flatMap jsonEscapeChar ++ Char.ofNat 34 :: rest) = some (s, rest) := by
  induction s with
  | nil => rw [jsonUnquote.eq_def]; simp
  | cons c s ih =>
    rw [List.flatMap_cons, List.append_assoc]
    exact jsonUnquote_cons c _ s rest ih

/-- The body written by `json.Marshal` decodes to the file path. -/
theorem jsonUnmarshalPath_marshal (filePath body : String)
    (h : jsonMarshalPath filePath = .ok body) : jsonUnmarshalPath body = some filePath := by
  unfold jsonMarshalPath at h
  cases h
  have hd : ("\x7b\"Path\":\"" ++ String.mk (filePath.data.flatMap jsonEscapeChar) ++ "\"\x7d").data =
      ['\x7b', Char.ofNat 34, 'P', 'a', 't', 'h', Char.ofNat 34, ':', Char.ofNat 34] ++
        (filePath.data.flatMap jsonEscapeChar ++ Char.ofNat 34 :: ['\x7d']) := by
    simp [String.data_append]
  unfold jsonUnmarshalPath
  rw [hd]
  simp only [List.take_left', List.drop_left', List.length_cons, List.length_nil,
    jsonUnquote_escape]
  simp

/-! ## Summary of a run of `start` -/

theorem obtainedID_append (a b : List Event) :
    obtainedID (a ++ b) = (obtainedID a).or (obtainedID b) := by
  simp [obtainedID, List.findSome?_append]

theorem launchBrowser_suffix (env : Env) (flags : Flags) (id : String) (tr : List Event) :
    ∃ suffix, (launchBrowser env flags id tr).trace = tr ++ suffix ∧ obtainedID suffix = none ∧
      commands suffix =
        [launcher env flags ++ ["http://localhost:" ++ Itoa flags.port ++ "?id=" ++ id]] := by
  have hc := commands_launchBrowser env flags id tr
  rw [launchBrowser_eq] at hc ⊢
  simp only [List.append_assoc] at hc ⊢
  refine ⟨_, rfl, ?_, ?_⟩
  · simp only [obtainedID_append]
    have h1 : ∀ (c : Prop) [Decidable c] (s : String),
        obtainedID (if c then [.log s] else []) = none := by
      intro c _ s
      split <;> rfl
    rw [h1, h1]
    rfl
  · simpa [commands_append] using hc

theorem addOKBeforeLaunch_of_mem (file : String) (pre post : List Event) (e : Event)
    (hpre : ∀ x ∈ pre, isCommandStart x = false) (he : isAddOK file e = true) (hmem : e ∈ pre) :
    addOKBeforeLaunch file (pre ++ post) = true := by
  unfold addOKBeforeLaunch
  rw [List.takeWhile_append_of_pos (by intro x hx; simp [hpre x hx])]
  simp only [List.any_append, Bool.or_eq_true, List.any_eq_true]
  exact Or.inl ⟨e, hmem, he⟩

theorem start_coordinator_summary (env : Env) (flags : Flags) (args : List String)
    (hfile : First args ≠ "") (hc : env.coordinatorNew flags.port = true) :
    (∀ id, obtainedID (start env flags args []).trace = some id →
      flags.shouldLaunch = true ∧ id = env.coordGetID (First args) ∧
        (id = "" → commands (start env flags args []).trace = []) ∧
        (id ≠ "" → commands (start env flags args []).trace =
            [launcher env flags ++ ["http://localhost:" ++ Itoa flags.port ++ "?id=" ++ id]] ∧
          addOKBeforeLaunch (First args) (start env flags args []).trace = true)) ∧
    (obtainedID (start env flags args []).trace = none →
      commands (start env flags args []).trace = []) := by
  rw [start_coordinator_eq env flags args [] hfile hc, addFile_eq]
  have hj : jsonMarshalPath (First args) = .ok ("\x7b\"Path\":\"" ++
      String.mk ((First args).data.flatMap jsonEscapeChar) ++ "\"\x7d") := rfl
  rw [hj]
  simp only []
  cases hadd : newRequest "POST" ("http://localhost:" ++ Itoa flags.port)
      (some ("\x7b\"Path\":\"" ++ String.mk ((First args).data.flatMap jsonEscapeChar) ++ "\"\x7d")) with
  | error e => simp [obtainedID, commands]
  | ok add =>
    obtain ⟨hm, -, hb, -⟩ := newRequest_fields _ _ _ _ hadd
    simp only [if_neg (show ¬ ("POST" = "") by decide)] at hm
    simp only []
    cases hd : env.clientDo add with
    | transportError e => simp [afterDo, obtainedID, commands]
    | response r =>
      by_cases hs : r.statusCode = 200
      · simp only [afterDo, hs, if_true]
        cases hl : flags.shouldLaunch with
        | false => simp [obtainedID, commands, hm]
        | true =>
          by_cases hid : env.coordGetID (First args) = ""
          · simp [obtainedID, commands, hm, hid]
          · obtain ⟨suffix, hsuf, hnone, hcmd⟩ := launchBrowser_suffix env flags
              (env.coordGetID (First args))
              ([] ++ [.log "start command: port=%d; shouldLaunch=%v, browser=%q; file=%q",
                .serve] ++ [.httpDo add (.response r)] ++
                [.coordGetID (First args) (env.coordGetID (First args))])
            simp only [hid, if_false, if_true, hsuf]
            have hobt : obtainedID ([] ++
                [.log "start command: port=%d; shouldLaunch=%v, browser=%q; file=%q",
                .serve] ++ [.httpDo add (.response r)] ++
                [.coordGetID (First args) (env.coordGetID (First args))] ++ suffix ++
                [.coordWait]) = some (env.coordGetID (First args)) := by
              simp [obtainedID, hm]
            have hcom : commands ([] ++
                [.log "start command: port=%d; shouldLaunch=%v, browser=%q; file=%q",
                .serve] ++ [.httpDo add (.response r)] ++
                [.coordGetID (First args) (env.coordGetID (First args))] ++ suffix ++
                [.coordWait]) = [launcher env flags ++ ["http://localhost:" ++ Itoa flags.port ++
                  "?id=" ++ env.coordGetID (First args)]] := by
              simp only [commands_append, hcmd]
              simp [commands]
            rw [hobt, hcom]
            refine ⟨fun id h => ?_, fun h => by simp at h⟩
            simp only [Option.some.injEq] at h
            subst h
            refine ⟨by simp, rfl, fun h => absurd h hid, fun _ => ⟨rfl, ?_⟩⟩
            have := addOKBeforeLaunch_of_mem (First args)
              [.log "start command: port=%d; shouldLaunch=%v, browser=%q; file=%q", .serve,
                .httpDo add (.response r)]
              ([.coordGetID (First args) (env.coordGetID (First args))] ++ suffix ++ [.coordWait])
              (.httpDo add (.response r)) (by simp [isCommandStart])
              (by simp [isAddOK, hm, hb, hj, hs, Except.toOption]) (by simp)
            simpa using this
      · simp [afterDo, hs, obtainedID, commands, hm]

theorem start_client_summary (env : Env) (flags : Flags) (args : List String)
    (hfile : First args ≠ "") (hc : env.coordinatorNew flags.port = false) :
    (∀ id, obtainedID (start env flags args []).trace = some id →
      flags.shouldLaunch = true ∧
        (∃ get, newRequest "GET"
            ("http://localhost:" ++ Itoa flags.port ++ "/getid?path=" ++ First args) none = .ok get ∧
          env.clientDo get = .response ⟨200, some id⟩) ∧
        (id = "" → commands (start env flags args []).trace = []) ∧
        (id ≠ "" → commands (start env flags args []).trace =
            [launcher env flags ++ ["http://localhost:" ++ Itoa flags.port ++ "?id=" ++ id]] ∧
          addOKBeforeLaunch (First args) (start env flags args []).trace = true)) ∧
    (obtainedID (start env flags args []).trace = none →
      commands (start env flags args []).trace = []) := by
  rw [start_client_eq env flags args [] hfile hc, addFile_eq]
  have hj : jsonMarshalPath (First args) = .ok ("\x7b\"Path\":\"" ++
      String.mk ((First args).data.flatMap jsonEscapeChar) ++ "\"\x7d") := rfl
  rw [hj]
  simp only []
  cases hadd : newRequest "POST" ("http://localhost:" ++ Itoa flags.port)
      (some ("\x7b\"Path\":\"" ++ String.mk ((First args).data.flatMap jsonEscapeChar) ++ "\"\x7d")) with
  | error e => simp [obtainedID, commands]
  | ok add =>
    obtain ⟨hm, -, hb, -⟩ := newRequest_fields _ _ _ _ hadd
    simp only [if_neg (show ¬ ("POST" = "") by decide)] at hm
    simp only []
    cases hd : env.clientDo add with
    | transportError e => simp [afterDo, obtainedID, commands]
    | response r =>
      by_cases hs : r.statusCode = 200
      · simp only [afterDo, hs, if_true]
        cases hl : flags.shouldLaunch with
        | false => simp [obtainedID, commands, hm]
        | true =>
          simp only [if_true, getID_eq]
          cases hg : newRequest "GET"
              ("http://localhost:" ++ Itoa flags.port ++ "/getid?path=" ++ First args) none with
          | error e => simp [obtainedID, commands, hm]
          | ok get =>
            obtain ⟨hmg, -, -, -⟩ := newRequest_fields _ _ _ _ hg
            simp only [if_neg (show ¬ ("GET" = "") by decide)] at hmg
            simp only []
            cases hdg : env.clientDo get with
            | transportError e => simp [afterDoGetID, obtainedID, commands, hm]
            | response r2 =>
              by_cases hs2 : r2.statusCode = 200
              · cases hb2 : r2.body with
                | none => simp [afterDoGetID, obtainedID, commands, hm, hmg, hs2, hb2]
                | some data =>
                  have hr2 : r2 = ⟨200, some data⟩ := by cases r2; simp_all
                  have hdg2 : env.clientDo get = .response ⟨200, some data⟩ := by
                    rw [hdg]
                    exact congrArg _ hr2
                  by_cases hdata : data = ""
                  · subst hdata
                    simp [afterDoGetID, obtainedID, commands, hm, hmg, hs2, hb2, hdg2]
                  · obtain ⟨suffix, hsuf, hnone, hcmd⟩ := launchBrowser_suffix env flags data
                      ([] ++ [.log "start command: port=%d; shouldLaunch=%v, browser=%q; file=%q",
                        .log "error: could not start coordinator: will try to POST: err=%q\n"] ++
                        [.httpDo add (.response r)] ++ [.httpDo get (.response r2)])
                    simp only [afterDoGetID, hs2, hb2, hdata, if_false, if_true, hsuf]
                    have hobt : obtainedID ([] ++
                        [.log "start command: port=%d; shouldLaunch=%v, browser=%q; file=%q",
                        .log "error: could not start coordinator: will try to POST: err=%q\n"] ++
                        [.httpDo add (.response r)] ++ [.httpDo get (.response r2)] ++ suffix)
                        = some data := by
                      simp [obtainedID, hm, hmg, hs2, hb2]
                    have hcom : commands ([] ++
                        [.log "start command: port=%d; shouldLaunch=%v, browser=%q; file=%q",
                        .log "error: could not start coordinator: will try to POST: err=%q\n"] ++
                        [.httpDo add (.response r)] ++ [.httpDo get (.response r2)] ++ suffix)
                        = [launcher env flags ++ ["http://localhost:" ++ Itoa flags.port ++
                          "?id=" ++ data]] := by
                      simp only [commands_append, hcmd]
                      simp [commands]
                    rw [hobt, hcom]
                    refine ⟨fun id h => ?_, fun h => by simp at h⟩
                    simp only [Option.some.injEq] at h
                    subst h
                    refine ⟨by simp, ⟨get, rfl, hdg2⟩, fun h => absurd h hdata, fun _ => ⟨rfl, ?_⟩⟩
                    have := addOKBeforeLaunch_of_mem (First args)
                      [.log "start command: port=%d; shouldLaunch=%v, browser=%q; file=%q",
                        .log "error: could not start coordinator: will try to POST: err=%q\n",
                        .httpDo add (.response r)]
                      ([.httpDo get (.response r2)] ++ suffix)
                      (.httpDo add (.response r)) (by simp [isCommandStart])
                      (by simp [isAddOK, hm, hb, hj, hs, Except.toOption]) (by simp)
                    simpa using this
              · simp [afterDoGetID, obtainedID, commands, hm, hmg, hs2]
      · simp [afterDo, hs, obtainedID, commands, hm]

/-! ## Lemmas on query parsing -/

theorem parseQuery_empty : parseQuery "" = [] := by decide

/-! ## The target and the query of the delete-one request -/

theorem parseAuthority_ok (a h : List Char) (hp : parseAuthority a = .ok h) : h = a := by
  unfold parseAuthority at hp
  repeat' split at hp
  all_goals first
    | (cases hp; rfl)
    | (cases hp)

/-- Scheme, host and path of a URL `scheme://authority` followed by nothing or by a
query. -/
theorem parseNoFragment_authority (raw : List Char) (u : URL) (s rest0 A : List Char)
    (h : parseNoFragment raw = .ok u) (hstar : raw ≠ ['*'])
    (hs : getScheme raw = .ok (s, rest0))
    (hq : (decide (rest0.getLast? = some '?') && decide (rest0.count '?' = 1)) = false)
    (hne : s ≠ []) (hrest : (cut '?' rest0).1 = '/' :: '/' :: A) (hA : ∀ c ∈ A, c ≠ '/') :
    u.scheme = String.mk (s.map Char.toLower) ∧ u.host = String.mk A ∧ u.path = "" := by
  unfold parseNoFragment at h
  have htake : List.takeWhile (fun c => c != '/') A = A := by
    rw [List.takeWhile_eq_self_iff]
    intro c hc
    simpa using hA c hc
  have hdrop : List.dropWhile (fun c => c != '/') A = [] := by
    rw [List.dropWhile_eq_nil_iff]
    intro c hc
    simpa using hA c hc
  have hsne : List.map Char.toLower s ≠ [] := by simpa using hne
  simp only [hstar, hs, hq, if_false, Bool.false_eq_true, hrest] at h
  simp only [List.head?_cons, ne_eq, not_true_eq_false, false_and, if_false, hsne,
    not_false_eq_true, true_or, List.take_succ_cons, List.take_zero, and_self, if_true,
    List.drop_succ_cons, List.drop_zero, htake, hdrop] at h
  by_cases hctl : stringContainsCTLByte raw = true
  · simp [hctl] at h
  simp only [hctl, if_false] at h
  cases hp : parseAuthority A with
  | error e => simp [hp] at h
  | ok host =>
    have hhost := parseAuthority_ok _ _ hp
    subst hhost
    simp only [hp] at h
    have hun : unescape false [] = some [] := rfl
    simp only [hun] at h
    cases h
    exact ⟨rfl, rfl, rfl⟩

theorem urlParse_target (s : String) (u : URL) (h : urlParse s = .ok u) :
    ∃ u0, parseNoFragment (cut '#' s.data).1 = .ok u0 ∧ u.scheme = u0.scheme ∧
      u.host = u0.host ∧ u.path = u0.path ∧ u.rawQuery = u0.rawQuery := by
  unfold urlParse at h
  cases h0 : parseNoFragment (cut '#' s.data).1 with
  | error e => simp [h0] at h
  | ok u0 =>
    refine ⟨u0, rfl, ?_⟩
    simp only [h0] at h
    by_cases hf : (cut '#' s.data).2 = []
    · simp only [hf, if_true] at h
      cases h
      exact ⟨rfl, rfl, rfl, rfl⟩
    · simp only [hf, if_false] at h
      cases hx : unescape false (cut '#' s.data).2 with
      | none => simp [hx] at h
      | some frag =>
        simp only [hx] at h
        cases h
        exact ⟨rfl, rfl, rfl, rfl⟩

theorem newRequest_target (method url : String) (body : Option String) (req : Request)
    (h : newRequest method url body = .ok req) :
    ∃ u, urlParse url = .ok u ∧ req.parsed.scheme = u.scheme ∧
      req.parsed.host = removeEmptyPort u.host ∧ req.parsed.path = u.path ∧
      req.parsed.rawQuery = u.rawQuery := by
  unfold newRequest at h
  simp only at h
  by_cases hv : validMethod (if method = "" then "GET" else method) = true
  · simp only [hv, if_true] at h
    cases hu : urlParse url with
    | error e => simp [hu] at h
    | ok u =>
      simp only [hu] at h
      cases h
      exact ⟨u, rfl, rfl, rfl, rfl, rfl⟩
  · simp [hv] at h

theorem toDigitsCore_ne_nil (fuel : Nat) :
    ∀ (n : Nat) (ds : List Char), ds ≠ [] ∨ 0 < fuel → Nat.toDigitsCore 10 fuel n ds ≠ [] := by
  induction fuel with
  | zero =>
    intro n ds h
    rcases h with h | h
    · simpa [Nat.toDigitsCore] using h
    · omega
  | succ fuel ih =>
    intro n ds _
    simp only [Nat.toDigitsCore]
    split
    · simp
    · exact ih _ _ (Or.inl (by simp))

theorem Itoa_ne_nil (p : Int) : (Itoa p).data ≠ [] := by
  cases p with
  | ofNat n =>
    have : (Nat.repr n).data = Nat.toDigitsCore 10 (n + 1) n [] := rfl
    show (Nat.repr n).data ≠ []
    rw [this]
    exact toDigitsCore_ne_nil _ _ _ (Or.inr (by omega))
  | negSucc n =>
    simp [Itoa, String.data_append]

/-- The host `localhost:<port>` does not end in a colon. -/
theorem removeEmptyPort_localhost (p : Int) :
    removeEmptyPort (String.mk (['l', 'o', 'c', 'a', 'l', 'h', 'o', 's', 't', ':'] ++ (Itoa p).data))
      = "localhost:" ++ Itoa p := by
  unfold removeEmptyPort
  have hlast : (['l', 'o', 'c', 'a', 'l', 'h', 'o', 's', 't', ':'] ++ (Itoa p).data).getLast?
      ≠ some ':' := by
    intro hl
    rw [List.getLast?_append_of_ne_nil _ (Itoa_ne_nil p)] at hl
    have hm := List.mem_of_getLast?_eq_some hl
    rcases Itoa_chars p ':' hm with h | h
    · exact absurd h (by decide)
    · exact absurd h (by decide)
  simp only [hlast, if_false]
  apply String.ext
  simp [String.data_append]

/-- The characters of `localhost:<port>`. -/
theorem localhost_chars (p : Int) :
    ∀ c ∈ ['l', 'o', 'c', 'a', 'l', 'h', 'o', 's', 't', ':'] ++ (Itoa p).data,
      c ≠ '/' ∧ c ≠ '?' ∧ c ≠ '#' := by
  intro c hc
  rcases List.mem_append.mp hc with h | h
  · have hall : ∀ c ∈ ['l', 'o', 'c', 'a', 'l', 'h', 'o', 's', 't', ':'],
        c ≠ '/' ∧ c ≠ '?' ∧ c ≠ '#' := by decide
    exact hall c h
  · rcases Itoa_chars p c h with hd | hd
    · refine ⟨?_, ?_, ?_⟩ <;> (rintro rfl; exact absurd hd (by decide))
    · subst hd; decide

theorem forceQuery_id_false (R F : List Char) :
    (decide ((R ++ '?' :: ('i' :: 'd' :: '=' :: F)).getLast? = some '?') &&
      decide (List.count '?' (R ++ '?' :: ('i' :: 'd' :: '=' :: F)) = 1)) = false := by
  rw [Bool.and_eq_false_iff]
  by_cases hm : '?' ∈ F
  · right
    have : 0 < List.count '?' F := List.count_pos_iff.mpr hm
    simp only [List.count_append, List.count_cons, decide_eq_false_iff_not]
    simp
    omega
  · left
    simp only [decide_eq_false_iff_not]
    intro hl
    rw [List.getLast?_append_cons, List.getLast?_cons_cons,
      List.getLast?_cons_cons, List.getLast?_cons_cons] at hl
    have := List.mem_of_getLast?_eq_some hl
    simp only [List.mem_cons] at this
    rcases this with h1 | h1
    · exact absurd h1 (by decide)
    · exact hm h1

theorem parse_http_id_target (A F : List Char) (hA : ∀ c ∈ A, c ≠ '/' ∧ c ≠ '?' ∧ c ≠ '#')
    (u0 : URL)
    (h : parseNoFragment
        (cut '#' ((['h', 't', 't', 'p', ':'] ++ (('/' :: '/' :: A) ++ ['?', 'i', 'd', '='])) ++ F)).1
      = .ok u0) :
    u0.scheme = "http" ∧ u0.host = String.mk A ∧ u0.path = "" := by
  have hR : ∀ c ∈ '/' :: '/' :: A, c ≠ '?' ∧ c ≠ '#' := by
    intro c hc
    simp only [List.mem_cons] at hc
    rcases hc with rfl | rfl | hc
    · decide
    · decide
    · exact ⟨(hA c hc).2.1, (hA c hc).2.2⟩
  have hcut : cut '#' ((['h', 't', 't', 'p', ':'] ++ (('/' :: '/' :: A) ++ ['?', 'i', 'd', '='])) ++ F) =
      ((['h', 't', 't', 'p', ':'] ++ (('/' :: '/' :: A) ++ ['?', 'i', 'd', '='])) ++ (cut '#' F).1,
        (cut '#' F).2) := by
    apply cut_append_left
    intro c hc
    rcases List.mem_append.mp hc with h1 | h1
    · exact http_chars c h1
    · rcases List.mem_append.mp h1 with h2 | h2
      · exact (hR c h2).2
      · have hall : ∀ c ∈ ['?', 'i', 'd', '='], c ≠ '#' := by decide
        exact hall c h2
  rw [hcut] at h
  have hshape : (['h', 't', 't', 'p', ':'] ++ (('/' :: '/' :: A) ++ ['?', 'i', 'd', '='])) ++ (cut '#' F).1 =
      'h' :: 't' :: 't' :: 'p' :: ':' ::
        (('/' :: '/' :: A) ++ '?' :: ('i' :: 'd' :: '=' :: (cut '#' F).1)) := by
    simp
  simp only [hshape] at h
  have := parseNoFragment_authority _ u0 _ _ A h (by simp) (getScheme_http _)
    (forceQuery_id_false _ _) (by simp)
    (by rw [cut_append_sep '?' _ _ (fun c hc => (hR c hc).1)]) (fun c hc => (hA c hc).1)
  exact ⟨this.1, this.2.1, this.2.2⟩

/-- The delete-one request goes to `http://localhost:<port>`: scheme, host and (empty)
path of its URL. -/
theorem newRequest_id_target (method : String) (p : Int) (file : String)
    (body : Option String) (req : Request)
    (h : newRequest method ("http://localhost:" ++ Itoa p ++ "?id=" ++ file) body = .ok req) :
    req.parsed.scheme = "http" ∧ req.parsed.host = "localhost:" ++ Itoa p ∧
      req.parsed.path = "" := by
  obtain ⟨u, hu, hs, hh, hp, -⟩ := newRequest_target _ _ _ _ h
  obtain ⟨u0, hu0, hs0, hh0, hp0, -⟩ := urlParse_target _ _ hu
  have hd : ("http://localhost:" ++ Itoa p ++ "?id=" ++ file).data =
      (['h', 't', 't', 'p', ':'] ++
        (('/' :: '/' :: (['l', 'o', 'c', 'a', 'l', 'h', 'o', 's', 't', ':'] ++ (Itoa p).data)) ++
          ['?', 'i', 'd', '='])) ++ file.data := by
    simp [String.data_append]
  rw [hd] at hu0
  obtain ⟨t1, t2, t3⟩ := parse_http_id_target _ _ (localhost_chars p) u0 hu0
  refine ⟨by rw [hs, hs0, t1], ?_, by rw [hp, hp0, t3]⟩
  rw [hh, hh0, t2, removeEmptyPort_localhost]

theorem queryPlain_chars (s : String) (h : queryPlain s = true) :
    ∀ c ∈ s.data, c ≠ '#' ∧ c ≠ '&' ∧ c ≠ ';' ∧ c ≠ '%' ∧ c ≠ '+' := by
  intro c hc
  unfold queryPlain at h
  rw [List.all_eq_true] at h
  have := h c hc
  simp only [Bool.not_eq_true', Bool.or_eq_false_iff, beq_eq_false_iff_ne, ne_eq] at this
  exact ⟨this.1.1.1.1, this.1.1.1.2, this.1.1.2, this.1.2, this.2⟩

theorem splitOn_no_sep (sep : Char) (l : List Char) (h : ∀ c ∈ l, c ≠ sep) :
    splitOn sep l = [l] := by
  induction l with
  | nil => rfl
  | cons a l ih =>
    have ha : a ≠ sep := h a (List.mem_cons_self a l)
    simp [splitOn, ha, ih (fun c hc => h c (List.mem_cons_of_mem a hc))]

theorem unescape_plain (l : List Char) (h : ∀ c ∈ l, c ≠ '%' ∧ c ≠ '+') :
    unescape true l = some l := by
  unfold unescape
  induction l with
  | nil => rfl
  | cons a l ih =>
    have ha := h a (List.mem_cons_self a l)
    rw [unescapeAux.eq_def]
    have hnil : utf8Decode [] = [] := rfl
    simp [ha.1, ha.2, ih (fun c hc => h c (List.mem_cons_of_mem a hc)), hnil]

/-- Query parsing of `id=<text>` for a plain text gives the one parameter `id` with
that text. -/
theorem parseQuery_id_plain (file : String) (h : queryPlain file = true) :
    parseQuery ("id=" ++ file) = [("id", file)] := by
  have hc := queryPlain_chars file h
  have hd : ("id=" ++ file).data = ['i', 'd'] ++ '=' :: file.data := by
    simp [String.data_append]
  unfold parseQuery
  rw [hd]
  have hsplit : splitOn '&' (['i', 'd'] ++ '=' :: file.data) = [['i', 'd'] ++ '=' :: file.data] := by
    apply splitOn_no_sep
    intro c hm
    simp only [List.cons_append, List.nil_append, List.mem_cons] at hm
    rcases hm with rfl | rfl | rfl | hm
    · decide
    · decide
    · decide
    · exact (hc c hm).2.1
  rw [hsplit]
  have hsemi : ';' ∉ ['i', 'd'] ++ '=' :: file.data := by
    intro hm
    simp only [List.cons_append, List.nil_append, List.mem_cons] at hm
    rcases hm with hm | hm | hm | hm
    · exact absurd hm (by decide)
    · exact absurd hm (by decide)
    · exact absurd hm (by decide)
    · exact (hc _ hm).2.2.1 rfl
  have hcut : cut '=' (['i', 'd'] ++ '=' :: file.data) = (['i', 'd'], file.data) :=
    cut_append_sep '=' _ _ (by decide)
  have hk : unescape true ['i', 'd'] = some ['i', 'd'] := by decide
  have hv : unescape true file.data = some file.data :=
    unescape_plain _ (fun c hm => ⟨(hc c hm).2.2.2.1, (hc c hm).2.2.2.2⟩)
  have hpair : parsePair (['i', 'd'] ++ '=' :: file.data) = some ("id", file) := by
    unfold parsePair
    rw [if_neg (fun hor => hor.elim (by simp) hsemi), hcut]
    simp only [hk, hv]
  rw [List.filterMap_cons, hpair]
  rfl

/-- For a plain path the delete-one request carries the parameter `id`, with the
path as its value. -/
theorem newRequest_id_plain (method : String) (p : Int) (file : String)
    (body : Option String) (req : Request)
    (h : newRequest method ("http://localhost:" ++ Itoa p ++ "?id=" ++ file) body = .ok req)
    (hplain : queryPlain file = true) :
    queryHas req.parsed "id" = true ∧ queryGet req.parsed "id" = file := by
  have hq := newRequest_id_rawQuery _ _ _ _ _ h
  have hcut : (cut '#' file.data).1 = file.data := by
    rw [cut_no_sep '#' _ (fun c hc => (queryPlain_chars file hplain c hc).1)]
  rw [hcut] at hq
  have hq2 : req.parsed.rawQuery = "id=" ++ file := hq
  simp [queryHas, queryGet, hq2, parseQuery_id_plain file hplain]

/-! ## When `start` obtains an id -/

theorem start_obtains_coordinator (env : Env) (flags : Flags) (args : List String)
    (add : Request) (b : Option String)
    (hfile : First args ≠ "") (hc : env.coordinatorNew flags.port = true)
    (hadd : newRequest "POST" ("http://localhost:" ++ Itoa flags.port)
      (jsonMarshalPath (First args)).toOption = .ok add)
    (hd : env.clientDo add = .response ⟨200, b⟩) (hl : flags.shouldLaunch = true) :
    obtainedID (start env flags args []).trace = some (env.coordGetID (First args)) := by
  have hj : jsonMarshalPath (First args) = .ok ("\x7b\"Path\":\"" ++
      String.mk ((First args).data.flatMap jsonEscapeChar) ++ "\"\x7d") := rfl
  rw [hj] at hadd
  have hadd2 : newRequest "POST" ("http://localhost:" ++ Itoa flags.port)
      (some ("\x7b\"Path\":\"" ++ String.mk ((First args).data.flatMap jsonEscapeChar) ++ "\"\x7d"))
      = .ok add := hadd
  obtain ⟨hm, -, -, -⟩ := newRequest_fields _ _ _ _ hadd2
  simp only [if_neg (show ¬ ("POST" = "") by decide)] at hm
  rw [start_coordinator_eq env flags args [] hfile hc, addFile_eq, hj]
  simp only [hadd2, hd, afterDo, if_true, hl]
  by_cases hid : env.coordGetID (First args) = ""
  · simp [obtainedID, hm, hid]
  · obtain ⟨suffix, hsuf, -, -⟩ := launchBrowser_suffix env flags
      (env.coordGetID (First args))
      ([] ++ [.log "start command: port=%d; shouldLaunch=%v, browser=%q; file=%q",
        .serve] ++ [.httpDo add (.response ⟨200, b⟩)] ++
        [.coordGetID (First args) (env.coordGetID (First args))])
    simp only [hid, if_false, hsuf]
    simp [obtainedID, hm]

theorem start_obtains_client (env : Env) (flags : Flags) (args : List String)
    (add get : Request) (b : Option String) (id : String)
    (hfile : First args ≠ "") (hc : env.coordinatorNew flags.port = false)
    (hadd : newRequest "POST" ("http://localhost:" ++ Itoa flags.port)
      (jsonMarshalPath (First args)).toOption = .ok add)
    (hd : env.clientDo add = .response ⟨200, b⟩) (hl : flags.shouldLaunch = true)
    (hget : newRequest "GET"
      ("http://localhost:" ++ Itoa flags.port ++ "/getid?path=" ++ First args) none = .ok get)
    (hdg : env.clientDo get = .response ⟨200, some id⟩) :
    obtainedID (start env flags args []).trace = some id := by
  have hj : jsonMarshalPath (First args) = .ok ("\x7b\"Path\":\"" ++
      String.mk ((First args).data.flatMap jsonEscapeChar) ++ "\"\x7d") := rfl
  rw [hj] at hadd
  have hadd2 : newRequest "POST" ("http://localhost:" ++ Itoa flags.port)
      (some ("\x7b\"Path\":\"" ++ String.mk ((First args).data.flatMap jsonEscapeChar) ++ "\"\x7d"))
      = .ok add := hadd
  obtain ⟨hm, -, -, -⟩ := newRequest_fields _ _ _ _ hadd2
  simp only [if_neg (show ¬ ("POST" = "") by decide)] at hm
  obtain ⟨hmg, -, -, -⟩ := newRequest_fields _ _ _ _ hget
  simp only [if_neg (show ¬ ("GET" = "") by decide)] at hmg
  rw [start_client_eq env flags args [] hfile hc, addFile_eq, hj]
  simp only [hadd2, hd, afterDo, if_true, hl, getID_eq, hget, hdg, afterDoGetID]
  by_cases hid : id = ""
  · simp [obtainedID, hm, hmg, hid]
  · obtain ⟨suffix, hsuf, -, -⟩ := launchBrowser_suffix env flags id
      ([] ++ [.log "start command: port=%d; shouldLaunch=%v, browser=%q; file=%q",
        .log "error: could not start coordinator: will try to POST: err=%q\n"] ++
        [.httpDo add (.response ⟨200, b⟩)] ++ [.httpDo get (.response ⟨200, some id⟩)])
    simp only [hid, if_false, hsuf]
    simp [obtainedID, hm, hmg]

theorem start_obtained_add_ok (env : Env) (flags : Flags) (args : List String) (id : String)
    (hfile : First args ≠ "")
    (ho : obtainedID (start env flags args []).trace = some id) :
    ∃ add b, newRequest "POST" ("http://localhost:" ++ Itoa flags.port)
        (jsonMarshalPath (First args)).toOption = .ok add ∧
      env.clientDo add = .response ⟨200, b⟩ := by
  have hj : jsonMarshalPath (First args) = .ok ("\x7b\"Path\":\"" ++
      String.mk ((First args).data.flatMap jsonEscapeChar) ++ "\"\x7d") := rfl
  have hto : (jsonMarshalPath (First args)).toOption = some ("\x7b\"Path\":\"" ++
      String.mk ((First args).data.flatMap jsonEscapeChar) ++ "\"\x7d") := rfl
  rw [hto]
  cases hadd : newRequest "POST" ("http://localhost:" ++ Itoa flags.port)
      (some ("\x7b\"Path\":\"" ++ String.mk ((First args).data.flatMap jsonEscapeChar) ++ "\"\x7d")) with
  | error e =>
    exfalso
    by_cases hc : env.coordinatorNew flags.port = true
    · rw [start_coordinator_eq env flags args [] hfile hc, addFile_eq, hj] at ho
      simp [hadd, obtainedID] at ho
    · rw [start_client_eq env flags args [] hfile (by simpa using hc), addFile_eq, hj] at ho
      simp [hadd, obtainedID] at ho
  | ok add =>
    obtain ⟨hm, -, -, -⟩ := newRequest_fields _ _ _ _ hadd
    simp only [if_neg (show ¬ ("POST" = "") by decide)] at hm
    refine ⟨add, ?_⟩
    cases hd : env.clientDo add with
    | transportError e =>
      exfalso
      by_cases hc : env.coordinatorNew flags.port = true
      · rw [start_coordinator_eq env flags args [] hfile hc, addFile_eq, hj] at ho
        simp [hadd, hd, afterDo, obtainedID] at ho
      · rw [start_client_eq env flags args [] hfile (by simpa using hc), addFile_eq, hj] at ho
        simp [hadd, hd, afterDo, obtainedID] at ho
    | response r =>
      by_cases hs : r.statusCode = 200
      · have hr : r = ⟨200, r.body⟩ := by cases r; simp_all
        exact ⟨r.body, rfl, congrArg _ hr⟩
      · exfalso
        by_cases hc : env.coordinatorNew flags.port = true
        · rw [start_coordinator_eq env flags args [] hfile hc, addFile_eq, hj] at ho
          simp [hadd, hd, afterDo, hs, obtainedID, hm] at ho
        · rw [start_client_eq env flags args [] hfile (by simpa using hc), addFile_eq, hj] at ho
          simp [hadd, hd, afterDo, hs, obtainedID, hm] at ho

/-! ## The claims -/

/-- C1 (amended). For every invocation of `stop`: when the path is empty and
`http.NewRequest` accepts the URL `http://localhost:<port>`, the run sends exactly one
request, a DELETE to that URL, which carries no `id` query parameter; when the path is
non-empty and `http.NewRequest` accepts the URL built for it, the run sends exactly
one request, a DELETE to `http://localhost:<port>` (scheme `http`, host
`localhost:<port>`, empty path), and for a path without the characters `#`, `&`, `;`,
`%` and `+` this request carries an `id` query parameter with a non-empty value, so
it is not the shutdown request.  When `http.NewRequest` rejects the URL, `stop` sends
no request and ends with the fatal error of the helper. -/
theorem stop_sends_one_delete (env : Env) (flags : Flags) (args : List String) :
    (First args = "" →
      (∀ req, newRequest "DELETE" ("http://localhost:" ++ Itoa flags.port) none = .ok req →
        requests (stop env flags args []).trace = [req] ∧ req.method = "DELETE" ∧
          req.url = "http://localhost:" ++ Itoa flags.port ∧ req.parsed.rawQuery = "" ∧
          queryHas req.parsed "id" = false) ∧
      (∀ e, newRequest "DELETE" ("http://localhost:" ++ Itoa flags.port) none = .error e →
        requests (stop env flags args []).trace = [] ∧
          (stop env flags args []).outcome =
            .fatal "error: could not create shutdown request: error=%q\n")) ∧
    (First args ≠ "" →
      (∀ req, newRequest "DELETE"
          ("http://localhost:" ++ Itoa flags.port ++ "?id=" ++ First args) none = .ok req →
        requests (stop env flags args []).trace = [req] ∧ req.method = "DELETE" ∧
          req.parsed.scheme = "http" ∧ req.parsed.host = "localhost:" ++ Itoa flags.port ∧
          req.parsed.path = "" ∧
          (queryPlain (First args) = true →
            queryHas req.parsed "id" = true ∧ queryGet req.parsed "id" ≠ "")) ∧
      (∀ e, newRequest "DELETE"
          ("http://localhost:" ++ Itoa flags.port ++ "?id=" ++ First args) none = .error e →
        requests (stop env flags args []).trace = [] ∧
          (stop env flags args []).outcome =
            .fatal "error: could not create delete file request: error=%q\n")) := by
  refine ⟨fun hfile => ⟨fun req hreq => ?_, fun e he => ?_⟩,
    fun hfile => ⟨fun req hreq => ?_, fun e he => ?_⟩⟩
  · have hq := newRequest_base_rawQuery _ _ _ _ hreq
    obtain ⟨hm, hu, -, -⟩ := newRequest_fields _ _ _ _ hreq
    refine ⟨?_, by simpa using hm, hu, hq, ?_⟩
    · rw [stop_eq, if_pos hfile, killServer_eq, hreq]
      simp only [Except.ok.injEq, requests_afterDo]
      rfl
    · simp [queryHas, hq, parseQuery_empty]
  · rw [stop_eq, if_pos hfile, killServer_eq, he]
    simp [requests]
  · obtain ⟨hm, -, -, -⟩ := newRequest_fields _ _ _ _ hreq
    obtain ⟨t1, t2, t3⟩ := newRequest_id_target _ _ _ _ _ hreq
    refine ⟨?_, by simpa using hm, t1, t2, t3, fun hplain => ?_⟩
    · rw [stop_eq, if_neg hfile, killFile_eq, hreq]
      simp only [requests_afterDo]
      rfl
    · obtain ⟨h1, h2⟩ := newRequest_id_plain _ _ _ _ _ hreq hplain
      exact ⟨h1, by rw [h2]; exact hfile⟩
  · rw [stop_eq, if_neg hfile, killFile_eq, he]
    simp [requests]

/-- Witness for C1: on port 1337, `stop` without a path sends the one shutdown request,
and `stop /tmp/a.md` sends the one delete request, which carries an `id` parameter. -/
theorem stop_sends_one_delete_witness :
    (requests (stop (sampleEnv "linux" false answerOK) ⟨1337, "", false⟩ [] []).trace =
        [⟨"DELETE", "http://localhost:1337",
          ⟨"http", "", "localhost:1337", "", false, "", ""⟩, none⟩]) ∧
    (requests (stop (sampleEnv "linux" false answerOK) ⟨1337, "", false⟩ ["/tmp/a.md"] []).trace =
        [⟨"DELETE", "http://localhost:1337?id=/tmp/a.md",
          ⟨"http", "", "localhost:1337", "", false, "id=/tmp/a.md", ""⟩, none⟩]) ∧
    queryHas ⟨"http", "", "localhost:1337", "", false, "id=/tmp/a.md", ""⟩ "id" = true :=
  ⟨(((stop_sends_one_delete (sampleEnv "linux" false answerOK) ⟨1337, "", false⟩ []).1 rfl).1
      ⟨"DELETE", "http://localhost:1337",
          ⟨"http", "", "localhost:1337", "", false, "", ""⟩, none⟩ rfl).1,
   (((stop_sends_one_delete (sampleEnv "linux" false answerOK) ⟨1337, "", false⟩
      ["/tmp/a.md"]).2 (by decide)).1
      ⟨"DELETE", "http://localhost:1337?id=/tmp/a.md",
          ⟨"http", "", "localhost:1337", "", false, "id=/tmp/a.md", ""⟩, none⟩ rfl).1,
   ((((stop_sends_one_delete (sampleEnv "linux" false answerOK) ⟨1337, "", false⟩
      ["/tmp/a.md"]).2 (by decide)).1
      ⟨"DELETE", "http://localhost:1337?id=/tmp/a.md",
          ⟨"http", "", "localhost:1337", "", false, "id=/tmp/a.md", ""⟩, none⟩ rfl).2.2.2.2.2
      (by decide)).1⟩

/-- A path that is not plain: for `100%.md` the URL is accepted, but standard query
parsing finds no `id` parameter in the request that `stop` sends, because `killFile`
puts the path into the query unescaped, as `getID` does. -/
theorem stop_percent_path_carries_no_id (env : Env) :
    (requests (stop env ⟨1337, "", false⟩ ["100%.md"] []).trace).map
        (fun r => (r.method, r.url, queryHas r.parsed "id")) =
      [("DELETE", "http://localhost:1337?id=100%.md", false)] := by
  have hreq : newRequest "DELETE" ("http://localhost:" ++ Itoa (1337 : Int) ++ "?id=" ++
      First ["100%.md"]) none =
      .ok ⟨"DELETE", "http://localhost:1337?id=100%.md",
        ⟨"http", "", "localhost:1337", "", false, "id=100%.md", ""⟩, none⟩ := rfl
  rw [stop_eq, if_neg (by decide), killFile_eq, hreq]
  simp only [requests_afterDo]
  decide

/-- Counterexample to C1 as stated: for the non-empty path `a<newline>b` the URL
contains a control character, `http.NewRequest` rejects it, and `stop` ends with a
fatal error without sending any request. -/
theorem stop_control_character_sends_nothing :
    First ["a\nb"] ≠ "" ∧
      requests (stop (sampleEnv "linux" false answerOK) ⟨1337, "", false⟩ ["a\nb"] []).trace = [] ∧
      (stop (sampleEnv "linux" false answerOK) ⟨1337, "", false⟩ ["a\nb"] []).outcome =
        .fatal "error: could not create delete file request: error=%q\n" := by
  refine ⟨by decide, by decide, by rfl⟩

/-- C2 (the code at the failing input). Whatever the coordinator answers, in
particular whatever id it would return for the path, `stop /tmp/a.md` sends a single
DELETE whose `id` parameter is the path `/tmp/a.md` itself; it never asks for the id. -/
theorem stop_id_is_the_path (env : Env) :
    (requests (stop env ⟨1337, "", false⟩ ["/tmp/a.md"] []).trace).map
        (fun r => (r.method, r.url, queryGet r.parsed "id")) =
      [("DELETE", "http://localhost:1337?id=/tmp/a.md", "/tmp/a.md")] := by
  have hreq : newRequest "DELETE" ("http://localhost:" ++ Itoa (1337 : Int) ++ "?id=" ++
      First ["/tmp/a.md"]) none =
      .ok ⟨"DELETE", "http://localhost:1337?id=/tmp/a.md",
        ⟨"http", "", "localhost:1337", "", false, "id=/tmp/a.md", ""⟩, none⟩ := rfl
  rw [stop_eq, if_neg (by decide), killFile_eq, hreq]
  simp only [requests_afterDo]
  decide

/-- C3 (amended). For every non-empty file path and every setting of the flags, when
`coordinator.New` fails and `http.NewRequest` accepts `http://localhost:<port>`,
`start` sends the Add request (a POST to that URL with the JSON body) first; the get-id
request follows, as the only other request, exactly when the `-l` flag is set, the Add
request was answered with status 200 and `http.NewRequest` accepts the get-id URL. -/
theorem start_fallback_requests (env : Env) (flags : Flags) (args : List String)
    (body : String) (add : Request)
    (hfile : First args ≠ "") (hc : env.coordinatorNew flags.port = false)
    (hbody : jsonMarshalPath (First args) = .ok body)
    (hadd : newRequest "POST" ("http://localhost:" ++ Itoa flags.port) (some body) = .ok add) :
    add.method = "POST" ∧ add.url = "http://localhost:" ++ Itoa flags.port ∧
      add.body = some body ∧
      requests (start env flags args []).trace =
        add :: (match env.clientDo add, flags.shouldLaunch,
            newRequest "GET"
              ("http://localhost:" ++ Itoa flags.port ++ "/getid?path=" ++ First args) none with
          | .response r, true, .ok get => if r.statusCode = 200 then [get] else []
          | _, _, _ => []) := by
  obtain ⟨hm, hu, hb, -⟩ := newRequest_fields _ _ _ _ hadd
  refine ⟨by simpa using hm, hu, hb, ?_⟩
  rw [start_client_eq env flags args [] hfile hc, addFile_eq, hbody]
  simp only [hadd]
  cases hd : env.clientDo add with
  | transportError e => simp [afterDo, requests]
  | response r =>
    by_cases hs : r.statusCode = 200
    · simp only [afterDo, hs, if_true]
      cases hl : flags.shouldLaunch with
      | false => simp [requests]
      | true =>
        simp only [if_true, getID_eq]
        cases hg : newRequest "GET"
            ("http://localhost:" ++ Itoa flags.port ++ "/getid?path=" ++ First args) none with
        | error e => simp [requests]
        | ok get =>
          simp only []
          cases hdg : env.clientDo get with
          | transportError e => simp [afterDoGetID, requests, hs]
          | response r2 =>
            by_cases hs2 : r2.statusCode = 200
            · cases hb2 : r2.body with
              | none => simp [afterDoGetID, requests, hs2, hb2, hs]
              | some data =>
                by_cases hdata : data = ""
                · simp [afterDoGetID, requests, hs2, hb2, hdata, hs]
                · simp only [afterDoGetID, hs2, hb2, hdata, if_true, if_false,
                    requests_launchBrowser]
                  simp [requests, hs]
            · simp [afterDoGetID, requests, hs2, hs]
    · simp only [afterDo, hs, if_false]
      split
      · rename_i heq _ _
        cases heq
        simp [hs, requests]
      · simp [requests]

/-- Witness for C3: with `-l` and a coordinator answering 200, the fallback sends the
Add request and then the get-id request. -/
theorem start_fallback_requests_witness :
    (requests (start (sampleEnv "linux" false answerOK) ⟨1337, "", true⟩
        ["/tmp/a.md"] []).trace).map (fun r => (r.method, r.url)) =
      [("POST", "http://localhost:1337"), ("GET", "http://localhost:1337/getid?path=/tmp/a.md")] := by
  have h := (start_fallback_requests (sampleEnv "linux" false answerOK) ⟨1337, "", true⟩
    ["/tmp/a.md"] "\x7b\"Path\":\"/tmp/a.md\"\x7d"
    ⟨"POST", "http://localhost:1337", ⟨"http", "", "localhost:1337", "", false, "", ""⟩,
      some "\x7b\"Path\":\"/tmp/a.md\"\x7d"⟩ (by decide) rfl rfl rfl).2.2.2
  rw [h]
  decide

/-- Counterexample to C3 as stated: without the `-l` flag, a `start` that falls back
to the client path sends the Add request only; no get-id request follows. -/
theorem start_without_l_sends_no_getid :
    First ["/tmp/a.md"] ≠ "" ∧
      (requests (start (sampleEnv "linux" false answerOK) ⟨1337, "", false⟩
          ["/tmp/a.md"] []).trace).map (fun r => (r.method, r.url)) =
        [("POST", "http://localhost:1337")] := by
  decide

/-- C4 (amended). For every file path and every port: when `http.NewRequest` accepts
`http://localhost:<port>`, `addFile` sends exactly one request, a POST to that URL whose
body is the JSON object with the single field `Path` equal to the file path; it
returns normally if and only if the answer has status 200; for an answer with any
other status the run ends with the fatal error of `addFile`, and `start` then has
sent no other request and started no command.  When `http.NewRequest` rejects the
URL, `addFile` sends nothing and ends with a fatal error, and so does `start`. -/
theorem addFile_contract (env : Env) (flags : Flags) (filePath : String) (tr : List Event)
    (body : String) (hbody : jsonMarshalPath filePath = .ok body) :
    jsonUnmarshalPath body = some filePath ∧
    (∀ req, newRequest "POST" ("http://localhost:" ++ Itoa flags.port) (some body) = .ok req →
      req.method = "POST" ∧ req.url = "http://localhost:" ++ Itoa flags.port ∧
      req.body = some body ∧
      requests (addFile env flags filePath tr).trace = requests tr ++ [req] ∧
      ((addFile env flags filePath tr).outcome = .returned () ↔
        ∃ b, env.clientDo req = .response ⟨200, b⟩) ∧
      (∀ r, env.clientDo req = .response r → r.statusCode ≠ 200 →
        (addFile env flags filePath tr).outcome =
            .fatal "error: could not preview markdown file: err=%q; statusCode=%q\n" ∧
          ∀ args, First args = filePath → filePath ≠ "" →
            (start env flags args []).outcome =
                .fatal "error: could not preview markdown file: err=%q; statusCode=%q\n" ∧
              requests (start env flags args []).trace = [req] ∧
              commands (start env flags args []).trace = [])) ∧
    (∀ e, newRequest "POST" ("http://localhost:" ++ Itoa flags.port) (some body) = .error e →
      requests (addFile env flags filePath tr).trace = requests tr ∧
        commands (addFile env flags filePath tr).trace = commands tr ∧
        (addFile env flags filePath tr).outcome =
          .fatal "error: could create http request: error=%q\n" ∧
        ∀ args, First args = filePath → filePath ≠ "" →
          (start env flags args []).outcome =
              .fatal "error: could create http request: error=%q\n" ∧
            requests (start env flags args []).trace = [] ∧
            commands (start env flags args []).trace = []) := by
  refine ⟨jsonUnmarshalPath_marshal _ _ hbody, fun req hreq => ?_, fun e he => ?_⟩
  · obtain ⟨hm, hu, hb, -⟩ := newRequest_fields _ _ _ _ hreq
    have hadd : ∀ tr, addFile env flags filePath tr =
        afterDo "error: could not preview markdown file: err=%q; statusCode=%q\n" req
          (env.clientDo req) tr := by
      intro tr
      rw [addFile_eq, hbody]
      simp only [hreq]
    refine ⟨by simpa using hm, hu, hb, ?_, ?_, ?_⟩
    · rw [hadd, requests_afterDo]
    · rw [hadd]
      cases hd : env.clientDo req with
      | transportError e => simp [afterDo]
      | response r =>
        by_cases hs : r.statusCode = 200
        · have hr : r = ⟨200, r.body⟩ := by cases r; simp_all
          simp only [afterDo, hs, if_true, true_iff]
          exact ⟨r.body, congrArg _ hr⟩
        · simp only [afterDo, hs, if_false]
          constructor
          · intro h; cases h
          · rintro ⟨b, hb⟩
            cases hb
            exact absurd rfl hs
    · intro r hd hs
      refine ⟨by rw [hadd]; simp [afterDo, hd, hs], fun args ha hne => ?_⟩
      subst ha
      by_cases hc : env.coordinatorNew flags.port = true
      · rw [start_coordinator_eq env flags args [] hne hc, hadd]
        simp [afterDo, hd, hs, requests, commands]
      · rw [start_client_eq env flags args [] hne (by simpa using hc), hadd]
        simp [afterDo, hd, hs, requests, commands]
  · have hadd : ∀ tr, addFile env flags filePath tr =
        ⟨tr ++ [.log "error: could create http request: error=%q\n"],
          .fatal "error: could create http request: error=%q\n"⟩ := by
      intro tr
      rw [addFile_eq, hbody]
      simp only [he]
    refine ⟨?_, ?_, by rw [hadd], fun args ha hne => ?_⟩
    · rw [hadd, requests_append]
      simp [requests]
    · rw [hadd, commands_append]
      simp [commands]
    · subst ha
      by_cases hc : env.coordinatorNew flags.port = true
      · rw [start_coordinator_eq env flags args [] hne hc, hadd]
        simp [requests, commands]
      · rw [start_client_eq env flags args [] hne (by simpa using hc), hadd]
        simp [requests, commands]

/-- Witness for C4: on port 1337 the Add request for `/tmp/a.md` is sent and decodes to
the path, and a status 500 makes `start` end with the fatal error; on port -1 nothing
is sent. -/
theorem addFile_contract_witness :
    jsonUnmarshalPath "\x7b\"Path\":\"/tmp/a.md\"\x7d" = some "/tmp/a.md" ∧
      requests (addFile (sampleEnv "linux" false answerOK) ⟨1337, "", false⟩ "/tmp/a.md" []).trace =
        [⟨"POST", "http://localhost:1337", ⟨"http", "", "localhost:1337", "", false, "", ""⟩,
          some "\x7b\"Path\":\"/tmp/a.md\"\x7d"⟩] ∧
      (start (sampleEnv "linux" false answerServerError) ⟨1337, "", true⟩ ["/tmp/a.md"] []).outcome =
        .fatal "error: could not preview markdown file: err=%q; statusCode=%q\n" ∧
      (start (sampleEnv "linux" false answerOK) ⟨-1, "", true⟩ ["/tmp/a.md"] []).outcome =
        .fatal "error: could create http request: error=%q\n" :=
  ⟨(addFile_contract (sampleEnv "linux" false answerOK) ⟨1337, "", false⟩ "/tmp/a.md" []
      "\x7b\"Path\":\"/tmp/a.md\"\x7d" rfl).1,
   ((addFile_contract (sampleEnv "linux" false answerOK) ⟨1337, "", false⟩ "/tmp/a.md" []
      "\x7b\"Path\":\"/tmp/a.md\"\x7d" rfl).2.1
      ⟨"POST", "http://localhost:1337", ⟨"http", "", "localhost:1337", "", false, "", ""⟩,
        some "\x7b\"Path\":\"/tmp/a.md\"\x7d"⟩ rfl).2.2.2.1,
   ((((addFile_contract (sampleEnv "linux" false answerServerError) ⟨1337, "", true⟩ "/tmp/a.md" []
      "\x7b\"Path\":\"/tmp/a.md\"\x7d" rfl).2.1
      ⟨"POST", "http://localhost:1337", ⟨"http", "", "localhost:1337", "", false, "", ""⟩,
        some "\x7b\"Path\":\"/tmp/a.md\"\x7d"⟩ rfl).2.2.2.2.2
      ⟨500, some ""⟩ rfl (by decide)).2 ["/tmp/a.md"] rfl (by decide)).1,
   (((addFile_contract (sampleEnv "linux" false answerOK) ⟨-1, "", true⟩ "/tmp/a.md" []
      "\x7b\"Path\":\"/tmp/a.md\"\x7d" rfl).2.2
      "invalid port after host" (by rfl)).2.2.2 ["/tmp/a.md"] rfl (by decide)).1⟩

/-- Counterexample to C4 as stated: with the port -1, `http.NewRequest` rejects
`http://localhost:-1` and `addFile` ends with a fatal error without sending a POST. -/
theorem addFile_negative_port_sends_nothing :
    requests (addFile (sampleEnv "linux" false answerOK) ⟨-1, "", false⟩ "/tmp/a.md" []).trace = [] ∧
      (addFile (sampleEnv "linux" false answerOK) ⟨-1, "", false⟩ "/tmp/a.md" []).outcome =
        .fatal "error: could create http request: error=%q\n" := by
  refine ⟨by decide, by rfl⟩

/-- C5 (the code at the failing input). For the file path `a&b.md` the URL requested
by `getID` has the path component `/getid`, but the `path` parameter obtained by
standard query parsing is `a`, not the file path. -/
theorem getID_ampersand_path (env : Env) :
    (requests (getID env ⟨1337, "", true⟩ "a&b.md" []).trace).map
        (fun r => (r.method, r.url, r.parsed.path, queryGet r.parsed "path")) =
      [("GET", "http://localhost:1337/getid?path=a&b.md", "/getid", "a")] := by
  have hreq : newRequest "GET" ("http://localhost:" ++ Itoa (1337 : Int) ++ "/getid?path=" ++
      "a&b.md") none =
      .ok ⟨"GET", "http://localhost:1337/getid?path=a&b.md",
        ⟨"http", "", "localhost:1337", "/getid", false, "path=a&b.md", ""⟩, none⟩ := rfl
  rw [getID_eq, hreq]
  simp only [requests_afterDoGetID]
  decide

/-- C6 (amended). Once the get-id request is built: for every answer with status 200
whose body is read as `data`, `getID` returns `data` unchanged (so it returns the
empty string exactly when the body is empty) after sending just that request; for an
answer with status 200 whose body cannot be read, and for every answer with another
status, it returns no id and ends with a fatal error of `getID`. -/
theorem getID_response (env : Env) (flags : Flags) (filePath : String) (tr : List Event)
    (req : Request)
    (hreq : newRequest "GET"
      ("http://localhost:" ++ Itoa flags.port ++ "/getid?path=" ++ filePath) none = .ok req) :
    (∀ data, env.clientDo req = .response ⟨200, some data⟩ →
      getID env flags filePath tr =
          ⟨tr ++ [.httpDo req (.response ⟨200, some data⟩)], .returned data⟩ ∧
        ((getID env flags filePath tr).outcome = .returned "" ↔ data = "")) ∧
    (env.clientDo req = .response ⟨200, none⟩ →
      (getID env flags filePath tr).outcome =
        .fatal "error: could not get ID of the file from body: err=%q\n") ∧
    (∀ r, env.clientDo req = .response r → r.statusCode ≠ 200 →
      (getID env flags filePath tr).outcome =
        .fatal "error: could not get ID of the file: err=%q; statusCode=%q\n") := by
  refine ⟨fun data hd => ?_, fun hd => ?_, fun r hd hs => ?_⟩
  · have h : getID env flags filePath tr =
        ⟨tr ++ [.httpDo req (.response ⟨200, some data⟩)], .returned data⟩ := by
      rw [getID_eq, hreq]
      simp [afterDoGetID, hd]
    refine ⟨h, ?_⟩
    rw [h]
    simp
  · rw [getID_eq, hreq]
    simp [afterDoGetID, hd]
  · rw [getID_eq, hreq]
    simp [afterDoGetID, hd, hs]

/-- Witness for C6: status 200 with body `5d41402a` gives that id; status 200 with an
unreadable body and status 500 are fatal. -/
theorem getID_response_witness :
    (getID (sampleEnv "linux" false answerOK) ⟨1337, "", true⟩ "/tmp/a.md" []).outcome =
        .returned "5d41402a" ∧
      (getID (sampleEnv "linux" false answerUnreadable) ⟨1337, "", true⟩ "/tmp/a.md" []).outcome =
        .fatal "error: could not get ID of the file from body: err=%q\n" ∧
      (getID (sampleEnv "linux" false answerServerError) ⟨1337, "", true⟩ "/tmp/a.md" []).outcome =
        .fatal "error: could not get ID of the file: err=%q; statusCode=%q\n" :=
  ⟨by
      have h := ((getID_response (sampleEnv "linux" false answerOK) ⟨1337, "", true⟩ "/tmp/a.md" []
        ⟨"GET", "http://localhost:1337/getid?path=/tmp/a.md",
          ⟨"http", "", "localhost:1337", "/getid", false, "path=/tmp/a.md", ""⟩, none⟩ rfl).1
        "5d41402a" rfl).1
      rw [h],
    (getID_response (sampleEnv "linux" false answerUnreadable) ⟨1337, "", true⟩ "/tmp/a.md" []
        ⟨"GET", "http://localhost:1337/getid?path=/tmp/a.md",
          ⟨"http", "", "localhost:1337", "/getid", false, "path=/tmp/a.md", ""⟩, none⟩ rfl).2.1
        rfl,
    (getID_response (sampleEnv "linux" false answerServerError) ⟨1337, "", true⟩ "/tmp/a.md" []
        ⟨"GET", "http://localhost:1337/getid?path=/tmp/a.md",
          ⟨"http", "", "localhost:1337", "/getid", false, "path=/tmp/a.md", ""⟩, none⟩ rfl).2.2
        ⟨500, some ""⟩ rfl (by decide)⟩

/-- Counterexample to C6 as stated: the answer has status 200 but its body cannot be
read; `getID` sends the request, returns no id and ends with a fatal error. -/
theorem getID_unreadable_body_is_fatal :
    (getID (sampleEnv "linux" false answerUnreadable) ⟨1337, "", true⟩ "/tmp/a.md" []) =
      ⟨[.httpDo ⟨"GET", "http://localhost:1337/getid?path=/tmp/a.md",
            ⟨"http", "", "localhost:1337", "/getid", false, "path=/tmp/a.md", ""⟩, none⟩
          (.response ⟨200, none⟩),
        .log "error: could not get ID of the file from body: err=%q\n"],
        .fatal "error: could not get ID of the file from body: err=%q\n"⟩ := by
  rfl

/-- C7. For every id and port the command started by `launchBrowser` ends with the
argument `http://localhost:<port>?id=<id>`; the arguments before it are `[browser]`
for a non-empty browser flag on any operating system, and for an empty browser flag
`open -g` on darwin, `xdg-open` on linux and `cmd /C start /B` on windows. -/
theorem launchBrowser_command (env : Env) (flags : Flags) (id : String) (tr : List Event) :
    (∃ before, commands (launchBrowser env flags id tr).trace = commands tr ++
        [before ++ ["http://localhost:" ++ Itoa flags.port ++ "?id=" ++ id]]) ∧
    (flags.browser ≠ "" →
      commands (launchBrowser env flags id tr).trace = commands tr ++
        [[flags.browser, "http://localhost:" ++ Itoa flags.port ++ "?id=" ++ id]]) ∧
    (flags.browser = "" → env.goos = "darwin" →
      commands (launchBrowser env flags id tr).trace = commands tr ++
        [["open", "-g", "http://localhost:" ++ Itoa flags.port ++ "?id=" ++ id]]) ∧
    (flags.browser = "" → env.goos = "linux" →
      commands (launchBrowser env flags id tr).trace = commands tr ++
        [["xdg-open", "http://localhost:" ++ Itoa flags.port ++ "?id=" ++ id]]) ∧
    (flags.browser = "" → env.goos = "windows" →
      commands (launchBrowser env flags id tr).trace = commands tr ++
        [["cmd", "/C", "start", "/B", "http://localhost:" ++ Itoa flags.port ++ "?id=" ++ id]]) := by
  refine ⟨⟨launcher env flags, commands_launchBrowser env flags id tr⟩,
    fun hb => ?_, fun hb ho => ?_, fun hb ho => ?_, fun hb ho => ?_⟩
  · rw [commands_launchBrowser]; simp [launcher, hb]
  · rw [commands_launchBrowser]; simp [launcher, hb, ho]
  · rw [commands_launchBrowser]; simp [launcher, hb, ho]
  · rw [commands_launchBrowser]; simp [launcher, hb, ho]

/-- Witness for C7: the four launcher cases on port 1337 with the id `5d41402a`. -/
theorem launchBrowser_command_witness :
    commands (launchBrowser (sampleEnv "linux" false answerOK) ⟨1337, "firefox", true⟩
        "5d41402a" []).trace = [["firefox", "http://localhost:1337?id=5d41402a"]] ∧
    commands (launchBrowser (sampleEnv "darwin" false answerOK) ⟨1337, "", true⟩
        "5d41402a" []).trace = [["open", "-g", "http://localhost:1337?id=5d41402a"]] ∧
    commands (launchBrowser (sampleEnv "linux" false answerOK) ⟨1337, "", true⟩
        "5d41402a" []).trace = [["xdg-open", "http://localhost:1337?id=5d41402a"]] ∧
    commands (launchBrowser (sampleEnv "windows" false answerOK) ⟨1337, "", true⟩
        "5d41402a" []).trace =
      [["cmd", "/C", "start", "/B", "http://localhost:1337?id=5d41402a"]] :=
  ⟨(launchBrowser_command (sampleEnv "linux" false answerOK) ⟨1337, "firefox", true⟩
      "5d41402a" []).2.1 (by decide),
   (launchBrowser_command (sampleEnv "darwin" false answerOK) ⟨1337, "", true⟩
      "5d41402a" []).2.2.1 rfl rfl,
   (launchBrowser_command (sampleEnv "linux" false answerOK) ⟨1337, "", true⟩
      "5d41402a" []).2.2.2.1 rfl rfl,
   (launchBrowser_command (sampleEnv "windows" false answerOK) ⟨1337, "", true⟩
      "5d41402a" []).2.2.2.2 rfl rfl⟩

/-- C8. For every non-empty file path, in coordinator mode and in client mode:
`start` starts a command if and only if the `-l` flag is set and the id obtained in
the run is non-empty; it then starts exactly one command, whose last argument is the
preview URL of exactly that id, and only after the Add request for the file was
answered with status 200.  An id is obtained only with `-l` set and after the Add
request was answered with status 200, and then it is obtained: in coordinator mode
it is the result of `coordinator.GetID`, in client mode the body of the 200 answer to
the get-id request. -/
theorem start_launches_browser (env : Env) (flags : Flags) (args : List String)
    (hfile : First args ≠ "") :
    (commands (start env flags args []).trace ≠ [] ↔
      flags.shouldLaunch = true ∧
        ∃ id, obtainedID (start env flags args []).trace = some id ∧ id ≠ "") ∧
    (∀ id, obtainedID (start env flags args []).trace = some id → id ≠ "" →
      commands (start env flags args []).trace =
        [launcher env flags ++ ["http://localhost:" ++ Itoa flags.port ++ "?id=" ++ id]]) ∧
    (commands (start env flags args []).trace ≠ [] →
      addOKBeforeLaunch (First args) (start env flags args []).trace = true) ∧
    (∀ id, obtainedID (start env flags args []).trace = some id →
      (env.coordinatorNew flags.port = true → id = env.coordGetID (First args)) ∧
      (env.coordinatorNew flags.port = false →
        ∃ get, newRequest "GET"
            ("http://localhost:" ++ Itoa flags.port ++ "/getid?path=" ++ First args) none = .ok get ∧
          env.clientDo get = .response ⟨200, some id⟩)) ∧
    (∀ id, obtainedID (start env flags args []).trace = some id →
      ∃ add b, newRequest "POST" ("http://localhost:" ++ Itoa flags.port)
          (jsonMarshalPath (First args)).toOption = .ok add ∧
        env.clientDo add = .response ⟨200, b⟩) ∧
    (∀ add b, newRequest "POST" ("http://localhost:" ++ Itoa flags.port)
        (jsonMarshalPath (First args)).toOption = .ok add →
      env.clientDo add = .response ⟨200, b⟩ → flags.shouldLaunch = true →
      (env.coordinatorNew flags.port = true →
        obtainedID (start env flags args []).trace = some (env.coordGetID (First args))) ∧
      (env.coordinatorNew flags.port = false →
        ∀ get id, newRequest "GET"
            ("http://localhost:" ++ Itoa flags.port ++ "/getid?path=" ++ First args) none = .ok get →
          env.clientDo get = .response ⟨200, some id⟩ →
          obtainedID (start env flags args []).trace = some id)) := by
  have key : (∀ id, obtainedID (start env flags args []).trace = some id →
      flags.shouldLaunch = true ∧
        ((env.coordinatorNew flags.port = true → id = env.coordGetID (First args)) ∧
        (env.coordinatorNew flags.port = false →
          ∃ get, newRequest "GET"
              ("http://localhost:" ++ Itoa flags.port ++ "/getid?path=" ++ First args) none = .ok get ∧
            env.clientDo get = .response ⟨200, some id⟩)) ∧
        (id = "" → commands (start env flags args []).trace = []) ∧
        (id ≠ "" → commands (start env flags args []).trace =
            [launcher env flags ++ ["http://localhost:" ++ Itoa flags.port ++ "?id=" ++ id]] ∧
          addOKBeforeLaunch (First args) (start env flags args []).trace = true)) ∧
    (obtainedID (start env flags args []).trace = none →
      commands (start env flags args []).trace = []) := by
    by_cases hc : env.coordinatorNew flags.port = true
    · obtain ⟨h1, h2⟩ := start_coordinator_summary env flags args hfile hc
      refine ⟨fun id hid => ?_, h2⟩
      obtain ⟨a, b, c, d⟩ := h1 id hid
      exact ⟨a, ⟨fun _ => b, fun h => by rw [hc] at h; cases h⟩, c, d⟩
    · have hc2 : env.coordinatorNew flags.port = false := by simpa using hc
      obtain ⟨h1, h2⟩ := start_client_summary env flags args hfile hc2
      refine ⟨fun id hid => ?_, h2⟩
      obtain ⟨a, b, c, d⟩ := h1 id hid
      exact ⟨a, ⟨fun h => absurd h hc, fun _ => b⟩, c, d⟩
  obtain ⟨k1, k2⟩ := key
  have hlaunch : commands (start env flags args []).trace ≠ [] →
      ∃ id, obtainedID (start env flags args []).trace = some id ∧ id ≠ "" := by
    intro hne
    cases ho : obtainedID (start env flags args []).trace with
    | none => exact absurd (k2 ho) hne
    | some id =>
      refine ⟨id, rfl, fun hid => ?_⟩
      exact hne ((k1 id ho).2.2.1 hid)
  refine ⟨⟨fun hne => ?_, fun h => ?_⟩, fun id ho hid => ((k1 id ho).2.2.2 hid).1,
    fun hne => ?_, fun id ho => (k1 id ho).2.1,
    fun id ho => start_obtained_add_ok env flags args id hfile ho,
    fun add b hadd hd hl =>
      ⟨fun hc => start_obtains_coordinator env flags args add b hfile hc hadd hd hl,
        fun hc get id hget hdg =>
          start_obtains_client env flags args add get b id hfile hc hadd hd hl hget hdg⟩⟩
  · obtain ⟨id, ho, hid⟩ := hlaunch hne
    exact ⟨(k1 id ho).1, id, ho, hid⟩
  · obtain ⟨-, id, ho, hid⟩ := h
    rw [((k1 id ho).2.2.2 hid).1]
    simp
  · obtain ⟨id, ho, hid⟩ := hlaunch hne
    exact ((k1 id ho).2.2.2 hid).2

/-- Witness for C8: with `-l` and the id `5d41402a`, `start /tmp/a.md` obtains the id
and launches once, in client mode and in coordinator mode. -/
theorem start_launches_browser_witness :
    commands (start (sampleEnv "linux" false answerOK) ⟨1337, "", true⟩ ["/tmp/a.md"] []).trace =
        [["xdg-open", "http://localhost:1337?id=5d41402a"]] ∧
      commands (start (sampleEnv "linux" true answerOK) ⟨1337, "firefox", true⟩
          ["/tmp/a.md"] []).trace = [["firefox", "http://localhost:1337?id=5d41402a"]] ∧
      obtainedID (start (sampleEnv "linux" true answerOK) ⟨1337, "firefox", true⟩
          ["/tmp/a.md"] []).trace = some "5d41402a" ∧
      obtainedID (start (sampleEnv "linux" false answerOK) ⟨1337, "", true⟩
          ["/tmp/a.md"] []).trace = some "5d41402a" :=
  ⟨(start_launches_browser (sampleEnv "linux" false answerOK) ⟨1337, "", true⟩ ["/tmp/a.md"]
      (by decide)).2.1 "5d41402a" (by decide) (by decide),
   (start_launches_browser (sampleEnv "linux" true answerOK) ⟨1337, "firefox", true⟩ ["/tmp/a.md"]
      (by decide)).2.1 "5d41402a" (by decide) (by decide),
   ((start_launches_browser (sampleEnv "linux" true answerOK) ⟨1337, "firefox", true⟩ ["/tmp/a.md"]
      (by decide)).2.2.2.2.2
      ⟨"POST", "http://localhost:1337", ⟨"http", "", "localhost:1337", "", false, "", ""⟩,
        some "\x7b\"Path\":\"/tmp/a.md\"\x7d"⟩ (some "5d41402a") rfl rfl rfl).1 rfl,
   ((start_launches_browser (sampleEnv "linux" false answerOK) ⟨1337, "", true⟩ ["/tmp/a.md"]
      (by decide)).2.2.2.2.2
      ⟨"POST", "http://localhost:1337", ⟨"http", "", "localhost:1337", "", false, "", ""⟩,
        some "\x7b\"Path\":\"/tmp/a.md\"\x7d"⟩ (some "5d41402a") rfl rfl rfl).2 rfl
      ⟨"GET", "http://localhost:1337/getid?path=/tmp/a.md",
        ⟨"http", "", "localhost:1337", "/getid", false, "path=/tmp/a.md", ""⟩, none⟩
      "5d41402a" rfl rfl⟩

/-- C9 (the code at the failing input). In each of `addFile`, `getID`, `killServer`
and `killFile`, when `client.Do` returns a transport error the run sends the request
and then ends in a nil-pointer panic: the fatal message is not logged, because its
argument `res.StatusCode` is read through the absent response. -/
theorem transport_error_panics (env : Env) (flags : Flags) (file : String) (tr : List Event)
    (req : Request) (e : String) (hd : env.clientDo req = .transportError e) :
    (∀ body, jsonMarshalPath file = .ok body →
      newRequest "POST" ("http://localhost:" ++ Itoa flags.port) (some body) = .ok req →
      addFile env flags file tr = ⟨tr ++ [.httpDo req (.transportError e)],
        .panicked "runtime error: invalid memory address or nil pointer dereference"⟩) ∧
    (newRequest "GET" ("http://localhost:" ++ Itoa flags.port ++ "/getid?path=" ++ file) none
        = .ok req →
      getID env flags file tr = ⟨tr ++ [.httpDo req (.transportError e)],
        .panicked "runtime error: invalid memory address or nil pointer dereference"⟩) ∧
    (newRequest "DELETE" ("http://localhost:" ++ Itoa flags.port) none = .ok req →
      killServer env flags tr = ⟨tr ++ [.httpDo req (.transportError e)],
        .panicked "runtime error: invalid memory address or nil pointer dereference"⟩) ∧
    (newRequest "DELETE" ("http://localhost:" ++ Itoa flags.port ++ "?id=" ++ file) none
        = .ok req →
      killFile env flags file tr = ⟨tr ++ [.httpDo req (.transportError e)],
        .panicked "runtime error: invalid memory address or nil pointer dereference"⟩) := by
  refine ⟨fun body hb hreq => ?_, fun hreq => ?_, fun hreq => ?_, fun hreq => ?_⟩
  · rw [addFile_eq, hb]
    simp [hreq, afterDo, hd]
  · rw [getID_eq, hreq]
    simp [afterDoGetID, hd]
  · rw [killServer_eq, hreq]
    simp [afterDo, hd]
  · rw [killFile_eq, hreq]
    simp [afterDo, hd]

/-- Witness for C9: with an unreachable coordinator on port 1337 all four helpers end
in the nil-pointer panic. -/
theorem transport_error_panics_witness :
    (addFile (sampleEnv "linux" false answerRefused) ⟨1337, "", true⟩ "/tmp/a.md" []).outcome =
        .panicked "runtime error: invalid memory address or nil pointer dereference" ∧
      (getID (sampleEnv "linux" false answerRefused) ⟨1337, "", true⟩ "/tmp/a.md" []).outcome =
        .panicked "runtime error: invalid memory address or nil pointer dereference" ∧
      (killServer (sampleEnv "linux" false answerRefused) ⟨1337, "", true⟩ []).outcome =
        .panicked "runtime error: invalid memory address or nil pointer dereference" ∧
      (killFile (sampleEnv "linux" false answerRefused) ⟨1337, "", true⟩ "/tmp/a.md" []).outcome =
        .panicked "runtime error: invalid memory address or nil pointer dereference" :=
  ⟨congrArg Run.outcome ((transport_error_panics (sampleEnv "linux" false answerRefused)
      ⟨1337, "", true⟩ "/tmp/a.md" []
      ⟨"POST", "http://localhost:1337", ⟨"http", "", "localhost:1337", "", false, "", ""⟩,
        some "\x7b\"Path\":\"/tmp/a.md\"\x7d"⟩ "connection refused" rfl).1
        "\x7b\"Path\":\"/tmp/a.md\"\x7d" rfl rfl),
   congrArg Run.outcome ((transport_error_panics (sampleEnv "linux" false answerRefused)
      ⟨1337, "", true⟩ "/tmp/a.md" []
      ⟨"GET", "http://localhost:1337/getid?path=/tmp/a.md",
        ⟨"http", "", "localhost:1337", "/getid", false, "path=/tmp/a.md", ""⟩, none⟩
      "connection refused" rfl).2.1 rfl),
   congrArg Run.outcome ((transport_error_panics (sampleEnv "linux" false answerRefused)
      ⟨1337, "", true⟩ "/tmp/a.md" []
      ⟨"DELETE", "http://localhost:1337", ⟨"http", "", "localhost:1337", "", false, "", ""⟩,
        none⟩ "connection refused" rfl).2.2.1 rfl),
   congrArg Run.outcome ((transport_error_panics (sampleEnv "linux" false answerRefused)
      ⟨1337, "", true⟩ "/tmp/a.md" []
      ⟨"DELETE", "http://localhost:1337?id=/tmp/a.md",
        ⟨"http", "", "localhost:1337", "", false, "id=/tmp/a.md", ""⟩, none⟩
      "connection refused" rfl).2.2.2 rfl)⟩

/-- C10 (the code at the failing input). With an empty browser flag on an operating
system other than darwin, linux and windows (here freebsd), `launchBrowser` logs that
it could not determine how to launch the browser and then still calls `Start` on a
command whose program name is the preview URL itself, for every id and port and
whatever else the environment does. -/
theorem launchBrowser_without_launcher (env : Env) (port : Int) (id : String) :
    (launchBrowser { env with goos := "freebsd" } ⟨port, "", true⟩ id []).trace.take 2 =
        [.log "error: could not determine how to launch browser",
          .log "launch browser cmd: args=%v\n"] ∧
      commands (launchBrowser { env with goos := "freebsd" } ⟨port, "", true⟩ id []).trace =
        [["http://localhost:" ++ Itoa port ++ "?id=" ++ id]] := by
  have hl : launcher { env with goos := "freebsd" } ⟨port, "", true⟩ = [] := by
    simp [launcher]
  refine ⟨?_, ?_⟩
  · rw [launchBrowser_eq, hl]
    simp
  · rw [commands_launchBrowser, hl]
    simp [commands]

end Godown
